import Mathlib

/-!
Verification of the inventory ledger and stock-consistency engine of the
`inventory-control` application (Tauri/Rust backend, `src-tauri/src`).

The engine lives in `services/txn_service.rs` (operations `create_inbound`,
`create_outbound`, `create_move`, `create_count`, `reverse_txn` and the helper
`apply_stock_delta`), backed by `repo/stock_repo.rs` (`get_stock_tx`,
`upsert_stock_tx`) and `repo/txn_repo.rs` (`insert_txn`, `get_txn_by_no`,
`has_reversal`).

The shallow embedding below models the SQLite database reachable from these
functions as an explicit state: the `txn` table as a list of rows in insertion
order, the `stock` table as an association list keyed by `(item_id, slot_id)`
(the surrogate `id` column of `stock` is only used by the source to address the
`UPDATE`, which the keyed update models directly), and the `operator` table as
a list of rows (only the `id` and `status` columns are ever read by the
engine).  Rust `i64` quantities are modelled as `Int`.  On every committed
state this is exact: a release-mode overflow at one of the engine's addition
sites wraps to a negative value, which the `qty < 0` guards reject before the
transaction commits, so committed program states never leave the i64 range and
coincide with the model's states.  Where the 64-bit width itself is the
subject — the unchecked additions of `create_inbound` (next_qty), the to-slot
update of `create_move` and `apply_stock_delta` (which performs the add-back
of an Outbound reversal) — the wrap-accurate variants `create_inbound_i64`,
`create_move_i64` and `apply_stock_delta_i64` below model the same source
lines with two's-complement wrap-around (`wrap64`), and the overflow claim is
settled against those.  `sqlx` transactions commit on success and roll
back on any error path, so each operation is a function from the pre-state to
`Except ErrorCode (result × post-state)`: an `error` outcome leaves the
database exactly as it was.  Error messages (Chinese strings in the source)
are dropped; only the `ErrorCode` of each `AppError` is kept.  UUIDs generated
by `Uuid::new_v4()` are passed in as explicit parameters; their freshness is an
environmental assumption made explicit where a property needs it.
-/

namespace Inventory

/-- `ErrorCode` from `domain/errors.rs`. -/
inductive ErrorCode where
  | AuthFailed
  | PwdChangeRequired
  | ValidationError
  | NotFound
  | InactiveResource
  | InsufficientStock
  | Conflict
  | Forbidden
  | DbError
  | IoError
deriving DecidableEq, Repr

/-- `TxnRow` from `repo/txn_repo.rs`: one row of the `txn` ledger table. -/
structure TxnRow where
  id : String
  txn_no : String
  txn_type : String
  occurred_at : Int
  created_at : Int
  operator_id : String
  item_id : String
  from_slot_id : Option String
  to_slot_id : Option String
  qty : Int
  actual_qty : Option Int
  ref_txn_id : Option String
  note : Option String
deriving DecidableEq, Repr

/-- `OperatorRow` from `repo/operator_repo.rs`, restricted to the two columns
the ledger engine reads (`id`, `status`). -/
structure OperatorRow where
  id : String
  status : String
deriving DecidableEq, Repr

/-- One row of the `stock` table (`repo/stock_repo.rs`): quantity and update
timestamp for an `(item_id, slot_id)` pair. -/
structure StockEntry where
  item_id : String
  slot_id : String
  qty : Int
  updated_at : Int
deriving DecidableEq, Repr

/-- The database state visible to the ledger engine. -/
structure Db where
  operators : List OperatorRow
  txns : List TxnRow
  stock : List StockEntry
deriving DecidableEq, Repr

/-- `stock_repo::get_stock_tx`: `SELECT qty FROM stock WHERE item_id = ? AND
slot_id = ?` (first matching row). -/
def get_stock_tx : List StockEntry → String → String → Option Int
  | [], _, _ => none
  | e :: rest, item, slot =>
    if e.item_id = item ∧ e.slot_id = slot then some e.qty
    else get_stock_tx rest item slot

/-- The write performed by `stock_repo::upsert_stock_tx` once its guard has
passed: `UPDATE` of the existing row for the pair, or `INSERT` of a new row. -/
def setStockEntry : List StockEntry → String → String → Int → Int → List StockEntry
  | [], item, slot, q, t => [⟨item, slot, q, t⟩]
  | e :: rest, item, slot, q, t =>
    if e.item_id = item ∧ e.slot_id = slot then ⟨item, slot, q, t⟩ :: rest
    else e :: setStockEntry rest item slot q t

/-- `stock_repo::upsert_stock_tx`: rejects a negative quantity with a
validation error, otherwise updates or inserts the row for the pair. -/
def upsert_stock_tx (stock : List StockEntry) (item slot : String) (qty updated_at : Int) :
    Except ErrorCode (List StockEntry) :=
  if qty < 0 then .error .ValidationError
  else .ok (setStockEntry stock item slot qty updated_at)

/-- `txn_repo::insert_txn`: append-only `INSERT` into the `txn` table. -/
def insert_txn (txns : List TxnRow) (row : TxnRow) : List TxnRow :=
  txns ++ [row]

/-- `txn_repo::get_txn_by_no`: `SELECT ... FROM txn WHERE txn_no = ?`
(first matching row). -/
def get_txn_by_no : List TxnRow → String → Option TxnRow
  | [], _ => none
  | r :: rest, no => if r.txn_no = no then some r else get_txn_by_no rest no

/-- Point lookup of a ledger row by its `id` column. -/
def find_txn_by_id : List TxnRow → String → Option TxnRow
  | [], _ => none
  | r :: rest, i => if r.id = i then some r else find_txn_by_id rest i

/-- `txn_repo::has_reversal`: `SELECT COUNT(1) FROM txn WHERE ref_txn_id = ?
AND type = 'REVERSAL'` compared against zero. -/
def has_reversal (txns : List TxnRow) (ref_id : String) : Prop :=
  ∃ r ∈ txns, r.ref_txn_id = some ref_id ∧ r.txn_type = "REVERSAL"

instance (txns : List TxnRow) (ref_id : String) : Decidable (has_reversal txns ref_id) := by
  unfold has_reversal; infer_instance

/-- `txn_service::require_active_operator_by_id`: resolve the operator row and
require `status = "active"`. -/
def require_active_operator_by_id (ops : List OperatorRow) (operator_id : String) :
    Except ErrorCode OperatorRow :=
  match ops.find? (fun o => o.id == operator_id) with
  | none => .error .NotFound
  | some o => if o.status ≠ "active" then .error .InactiveResource else .ok o

/-- `txn_service::apply_stock_delta`: read current quantity (absent = 0), add
the signed delta, fail with `InsufficientStock` if the result is negative,
otherwise upsert. -/
def apply_stock_delta (stock : List StockEntry) (item_id slot_id : String) (delta now : Int) :
    Except ErrorCode (List StockEntry) :=
  let current_qty := (get_stock_tx stock item_id slot_id).getD 0
  let next_qty := current_qty + delta
  if next_qty < 0 then .error .InsufficientStock
  else upsert_stock_tx stock item_id slot_id next_qty now

/-- The `TxnRow` literal built by `create_inbound`. -/
def inboundRow (txn_id txn_no : String) (occurred_at now : Int) (operator_id item_id slot_id : String)
    (qty : Int) (note : Option String) : TxnRow :=
  { id := txn_id, txn_no := txn_no, txn_type := "IN", occurred_at := occurred_at,
    created_at := now, operator_id := operator_id, item_id := item_id,
    from_slot_id := none, to_slot_id := some slot_id, qty := qty,
    actual_qty := none, ref_txn_id := none, note := note }

/-- `txn_service::create_inbound`. -/
def create_inbound (db : Db) (item_id to_slot_id : String) (qty occurred_at : Int)
    (actor_operator_id : String) (note : Option String) (now : Int) (txn_id txn_no : String) :
    Except ErrorCode (String × Db) :=
  if qty ≤ 0 then .error .ValidationError
  else
    match require_active_operator_by_id db.operators actor_operator_id with
    | .error e => .error e
    | .ok operator =>
      let row := inboundRow txn_id txn_no occurred_at now operator.id item_id to_slot_id qty note
      let txns := insert_txn db.txns row
      let current := get_stock_tx db.stock item_id to_slot_id
      let next_qty := current.getD 0 + qty
      match upsert_stock_tx db.stock item_id to_slot_id next_qty now with
      | .error e => .error e
      | .ok stock => .ok (txn_no, { db with txns := txns, stock := stock })

/-- The `TxnRow` literal built by `create_outbound`. -/
def outboundRow (txn_id txn_no : String) (occurred_at now : Int) (operator_id item_id slot_id : String)
    (qty : Int) (note : Option String) : TxnRow :=
  { id := txn_id, txn_no := txn_no, txn_type := "OUT", occurred_at := occurred_at,
    created_at := now, operator_id := operator_id, item_id := item_id,
    from_slot_id := some slot_id, to_slot_id := none, qty := qty,
    actual_qty := none, ref_txn_id := none, note := note }

/-- `txn_service::create_outbound`. -/
def create_outbound (db : Db) (item_id from_slot_id : String) (qty occurred_at : Int)
    (actor_operator_id : String) (note : Option String) (now : Int) (txn_id txn_no : String) :
    Except ErrorCode (String × Db) :=
  if qty ≤ 0 then .error .ValidationError
  else
    match require_active_operator_by_id db.operators actor_operator_id with
    | .error e => .error e
    | .ok operator =>
      let current_qty := (get_stock_tx db.stock item_id from_slot_id).getD 0
      if current_qty < qty then .error .InsufficientStock
      else
        let row := outboundRow txn_id txn_no occurred_at now operator.id item_id from_slot_id qty note
        let txns := insert_txn db.txns row
        match upsert_stock_tx db.stock item_id from_slot_id (current_qty - qty) now with
        | .error e => .error e
        | .ok stock => .ok (txn_no, { db with txns := txns, stock := stock })

/-- The `TxnRow` literal built by `create_move`. -/
def moveRow (txn_id txn_no : String) (occurred_at now : Int) (operator_id item_id from_slot to_slot : String)
    (qty : Int) (note : Option String) : TxnRow :=
  { id := txn_id, txn_no := txn_no, txn_type := "MOVE", occurred_at := occurred_at,
    created_at := now, operator_id := operator_id, item_id := item_id,
    from_slot_id := some from_slot, to_slot_id := some to_slot, qty := qty,
    actual_qty := none, ref_txn_id := none, note := note }

/-- `txn_service::create_move`: validates, checks source stock, appends one
MOVE row, updates the source slot and then the target slot (the target read
sees the already-updated stock list, as in the source transaction). -/
def create_move (db : Db) (item_id from_slot_id to_slot_id : String) (qty occurred_at : Int)
    (actor_operator_id : String) (note : Option String) (now : Int) (txn_id txn_no : String) :
    Except ErrorCode (String × Db) :=
  if qty ≤ 0 then .error .ValidationError
  else if from_slot_id = to_slot_id then .error .ValidationError
  else
    match require_active_operator_by_id db.operators actor_operator_id with
    | .error e => .error e
    | .ok operator =>
      let current_qty := (get_stock_tx db.stock item_id from_slot_id).getD 0
      if current_qty < qty then .error .InsufficientStock
      else
        let row := moveRow txn_id txn_no occurred_at now operator.id item_id from_slot_id to_slot_id qty note
        let txns := insert_txn db.txns row
        match upsert_stock_tx db.stock item_id from_slot_id (current_qty - qty) now with
        | .error e => .error e
        | .ok stock1 =>
          let to_next := (get_stock_tx stock1 item_id to_slot_id).getD 0 + qty
          match upsert_stock_tx stock1 item_id to_slot_id to_next now with
          | .error e => .error e
          | .ok stock2 => .ok (txn_no, { db with txns := txns, stock := stock2 })

/-- The COUNT `TxnRow` literal built by `create_count` (informational:
`qty = 0`, `actual_qty` recorded, slot in `from_slot_id`). -/
def countRow (txn_id txn_no : String) (occurred_at now : Int) (operator_id item_id slot_id : String)
    (actual_qty : Int) (note : Option String) : TxnRow :=
  { id := txn_id, txn_no := txn_no, txn_type := "COUNT", occurred_at := occurred_at,
    created_at := now, operator_id := operator_id, item_id := item_id,
    from_slot_id := some slot_id, to_slot_id := none, qty := 0,
    actual_qty := some actual_qty, ref_txn_id := none, note := note }

/-- The ADJUST `TxnRow` literal built by `create_count` (`qty` is the signed
delta `actual - prior`; `ref_txn_id` is `None` in the source). -/
def adjustRow (txn_id txn_no : String) (occurred_at now : Int) (operator_id item_id slot_id : String)
    (delta : Int) (note : Option String) : TxnRow :=
  { id := txn_id, txn_no := txn_no, txn_type := "ADJUST", occurred_at := occurred_at,
    created_at := now, operator_id := operator_id, item_id := item_id,
    from_slot_id := some slot_id, to_slot_id := none, qty := delta,
    actual_qty := none, ref_txn_id := none, note := note }

/-- `txn_service::create_count`: validates `actual_qty ≥ 0`, appends a COUNT
row and an ADJUST row carrying `actual - prior`, and sets the stock level of
the pair to `actual_qty`, all in one transaction.  Returns the COUNT row's
`txn_no`. -/
def create_count (db : Db) (item_id slot_id : String) (actual_qty occurred_at : Int)
    (actor_operator_id : String) (note : Option String) (now : Int)
    (count_txn_id adjust_txn_id count_txn_no adjust_txn_no : String) :
    Except ErrorCode (String × Db) :=
  if actual_qty < 0 then .error .ValidationError
  else
    match require_active_operator_by_id db.operators actor_operator_id with
    | .error e => .error e
    | .ok operator =>
      let current_qty := (get_stock_tx db.stock item_id slot_id).getD 0
      let delta := actual_qty - current_qty
      let c_row := countRow count_txn_id count_txn_no occurred_at now operator.id item_id slot_id actual_qty note
      let a_row := adjustRow adjust_txn_id adjust_txn_no occurred_at now operator.id item_id slot_id delta note
      let txns := insert_txn (insert_txn db.txns c_row) a_row
      match upsert_stock_tx db.stock item_id slot_id actual_qty now with
      | .error e => .error e
      | .ok stock => .ok (count_txn_no, { db with txns := txns, stock := stock })

/-- The REVERSAL `TxnRow` literal built by `reverse_txn`: copies the target's
item, slots and `qty`, and sets `ref_txn_id` to the target's `id`. -/
def reversalRow (txn_id txn_no : String) (occurred_at now : Int) (operator_id : String)
    (target : TxnRow) (note : Option String) : TxnRow :=
  { id := txn_id, txn_no := txn_no, txn_type := "REVERSAL", occurred_at := occurred_at,
    created_at := now, operator_id := operator_id, item_id := target.item_id,
    from_slot_id := target.from_slot_id, to_slot_id := target.to_slot_id, qty := target.qty,
    actual_qty := none, ref_txn_id := some target.id, note := note }

/-- The stock mutation performed inside `reverse_txn`'s transaction, dispatched
on the target's stored kind exactly as the source `match`. -/
def reverseStockEffect (stock : List StockEntry) (target : TxnRow) (now : Int) :
    Except ErrorCode (List StockEntry) :=
  if target.txn_type = "IN" then
    match target.to_slot_id with
    | none => .error .ValidationError
    | some to_slot => apply_stock_delta stock target.item_id to_slot (-target.qty) now
  else if target.txn_type = "OUT" then
    match target.from_slot_id with
    | none => .error .ValidationError
    | some from_slot => apply_stock_delta stock target.item_id from_slot target.qty now
  else if target.txn_type = "MOVE" then
    match target.from_slot_id, target.to_slot_id with
    | some from_slot, some to_slot =>
      match apply_stock_delta stock target.item_id from_slot target.qty now with
      | .error e => .error e
      | .ok stock1 => apply_stock_delta stock1 target.item_id to_slot (-target.qty) now
    | _, _ => .error .ValidationError
  else if target.txn_type = "ADJUST" then
    match target.from_slot_id with
    | none => .error .ValidationError
    | some slot => apply_stock_delta stock target.item_id slot (-target.qty) now
  else .error .ValidationError

/-- `txn_service::reverse_txn`: operator check, target lookup by `txn_no`,
rejection of REVERSAL/COUNT targets, at-most-one-reversal check, then the
inverse stock effect and the REVERSAL row append in one transaction. -/
def reverse_txn (db : Db) (txn_no : String) (occurred_at : Int) (actor_operator_id : String)
    (note : Option String) (now : Int) (reversal_id reversal_no : String) :
    Except ErrorCode (String × Db) :=
  match require_active_operator_by_id db.operators actor_operator_id with
  | .error e => .error e
  | .ok operator =>
    match get_txn_by_no db.txns txn_no with
    | none => .error .NotFound
    | some target =>
      if target.txn_type = "REVERSAL" ∨ target.txn_type = "COUNT" then .error .ValidationError
      else if has_reversal db.txns target.id then .error .Conflict
      else
        match reverseStockEffect db.stock target now with
        | .error e => .error e
        | .ok stock1 =>
          let row := reversalRow reversal_id reversal_no occurred_at now operator.id target note
          .ok (reversal_no, { db with txns := insert_txn db.txns row, stock := stock1 })

/-! ### Spec-side effect semantics (for the stock/ledger-sum refinement)

These definitions follow the wording of the spec's §3 invariant: the signed
effect of a committed movement on a given `(item, slot)` pair. -/

/-- Signed effect of a non-REVERSAL ledger row on the pair `(item, slot)`, as
the spec states it: Inbound `+qty` on its to-slot, Outbound `-qty` on its
from-slot, Move both, Count `0`, Adjust its signed `qty` on its slot. -/
def baseEffect (r : TxnRow) (item slot : String) : Int :=
  if r.txn_type = "IN" then
    (if r.item_id = item ∧ r.to_slot_id = some slot then r.qty else 0)
  else if r.txn_type = "OUT" then
    (if r.item_id = item ∧ r.from_slot_id = some slot then -r.qty else 0)
  else if r.txn_type = "MOVE" then
    (if r.item_id = item ∧ r.to_slot_id = some slot then r.qty else 0)
    + (if r.item_id = item ∧ r.from_slot_id = some slot then -r.qty else 0)
  else if r.txn_type = "ADJUST" then
    (if r.item_id = item ∧ r.from_slot_id = some slot then r.qty else 0)
  else 0

/-- Signed effect of any ledger row, resolving a REVERSAL to the inverse of the
effect of the movement it references (looked up in the full ledger). -/
def rowEffect (txns : List TxnRow) (r : TxnRow) (item slot : String) : Int :=
  if r.txn_type = "REVERSAL" then
    match r.ref_txn_id with
    | none => 0
    | some rid =>
      match find_txn_by_id txns rid with
      | none => 0
      | some t => -baseEffect t item slot
  else baseEffect r item slot

/-- The signed sum of the effects of all committed movements on a pair. -/
def ledgerSum (txns : List TxnRow) (item slot : String) : Int :=
  (txns.map fun r => rowEffect txns r item slot).sum

/-- Current stored quantity of a pair, an absent entry counting as 0. -/
def stockQty (db : Db) (item slot : String) : Int :=
  (get_stock_tx db.stock item slot).getD 0

/-- All stored stock quantities are non-negative. -/
def StockNonNeg (stock : List StockEntry) : Prop :=
  ∀ e ∈ stock, 0 ≤ e.qty

instance (stock : List StockEntry) : Decidable (StockNonNeg stock) := by
  unfold StockNonNeg; infer_instance

/-- No two ledger rows share an `id`. -/
def IdsNodup (txns : List TxnRow) : Prop :=
  (txns.map TxnRow.id).Nodup

/-- `i` is not the `id` of any committed row (freshness of a generated UUID). -/
def FreshId (txns : List TxnRow) (i : String) : Prop :=
  ∀ r ∈ txns, r.id ≠ i

/-- `n` is not the `txn_no` of any committed row (freshness of a generated
movement number). -/
def FreshNo (txns : List TxnRow) (n : String) : Prop :=
  ∀ r ∈ txns, r.txn_no ≠ n

instance (txns : List TxnRow) (i : String) : Decidable (FreshId txns i) := by
  unfold FreshId; infer_instance

instance (txns : List TxnRow) (n : String) : Decidable (FreshNo txns n) := by
  unfold FreshNo; infer_instance

/-- 64-bit two's-complement wrap-around, the semantics of Rust release-mode
`i64` arithmetic at the engine's addition sites. -/
def wrap64 (x : Int) : Int :=
  (x + 2 ^ 63) % 2 ^ 64 - 2 ^ 63

/-- `txn_service::create_inbound` under release-mode `i64` semantics: identical
to `create_inbound` except that the new-quantity computation
`current.map(|s| s.qty).unwrap_or(0) + qty` wraps, as the unchecked 64-bit
signed addition does. -/
def create_inbound_i64 (db : Db) (item_id to_slot_id : String) (qty occurred_at : Int)
    (actor_operator_id : String) (note : Option String) (now : Int) (txn_id txn_no : String) :
    Except ErrorCode (String × Db) :=
  if qty ≤ 0 then .error .ValidationError
  else
    match require_active_operator_by_id db.operators actor_operator_id with
    | .error e => .error e
    | .ok operator =>
      let row := inboundRow txn_id txn_no occurred_at now operator.id item_id to_slot_id qty note
      let txns := insert_txn db.txns row
      let current := get_stock_tx db.stock item_id to_slot_id
      let next_qty := wrap64 (current.getD 0 + qty)
      match upsert_stock_tx db.stock item_id to_slot_id next_qty now with
      | .error e => .error e
      | .ok stock => .ok (txn_no, { db with txns := txns, stock := stock })

/-- `txn_service::create_move` under release-mode `i64` semantics: identical to
`create_move` except that the `from_next = current_qty - qty` and
`to_next = to_current + qty` computations wrap. -/
def create_move_i64 (db : Db) (item_id from_slot_id to_slot_id : String) (qty occurred_at : Int)
    (actor_operator_id : String) (note : Option String) (now : Int) (txn_id txn_no : String) :
    Except ErrorCode (String × Db) :=
  if qty ≤ 0 then .error .ValidationError
  else if from_slot_id = to_slot_id then .error .ValidationError
  else
    match require_active_operator_by_id db.operators actor_operator_id with
    | .error e => .error e
    | .ok operator =>
      let current_qty := (get_stock_tx db.stock item_id from_slot_id).getD 0
      if current_qty < qty then .error .InsufficientStock
      else
        let row := moveRow txn_id txn_no occurred_at now operator.id item_id from_slot_id to_slot_id qty note
        let txns := insert_txn db.txns row
        match upsert_stock_tx db.stock item_id from_slot_id (wrap64 (current_qty - qty)) now with
        | .error e => .error e
        | .ok stock1 =>
          let to_next := wrap64 ((get_stock_tx stock1 item_id to_slot_id).getD 0 + qty)
          match upsert_stock_tx stock1 item_id to_slot_id to_next now with
          | .error e => .error e
          | .ok stock2 => .ok (txn_no, { db with txns := txns, stock := stock2 })

/-- `txn_service::apply_stock_delta` under release-mode `i64` semantics:
identical to `apply_stock_delta` — this is the function that performs the
add-back of an Outbound reversal (`reverse_txn`'s OUT arm calls it with
`+target.qty`) — except that `current_qty + delta` wraps. -/
def apply_stock_delta_i64 (stock : List StockEntry) (item_id slot_id : String)
    (delta now : Int) : Except ErrorCode (List StockEntry) :=
  let current_qty := (get_stock_tx stock item_id slot_id).getD 0
  let next_qty := wrap64 (current_qty + delta)
  if next_qty < 0 then .error .InsufficientStock
  else upsert_stock_tx stock item_id slot_id next_qty now

/-- States reachable from an empty database (any operator table, no movements,
no stock) by committed ledger operations, with the generated UUID identifiers
assumed fresh. -/
inductive Reaches : Db → Prop where
  | init (ops : List OperatorRow) : Reaches ⟨ops, [], []⟩
  | inbound {db db' : Db} {item slot actor : String} {qty occ now : Int} {note : Option String}
      {tid tno no : String} (hr : Reaches db) (hid : FreshId db.txns tid) (hno : FreshNo db.txns tno)
      (h : create_inbound db item slot qty occ actor note now tid tno = .ok (no, db')) :
      Reaches db'
  | outbound {db db' : Db} {item slot actor : String} {qty occ now : Int} {note : Option String}
      {tid tno no : String} (hr : Reaches db) (hid : FreshId db.txns tid) (hno : FreshNo db.txns tno)
      (h : create_outbound db item slot qty occ actor note now tid tno = .ok (no, db')) :
      Reaches db'
  | move {db db' : Db} {item fromSlot toSlot actor : String} {qty occ now : Int} {note : Option String}
      {tid tno no : String} (hr : Reaches db) (hid : FreshId db.txns tid) (hno : FreshNo db.txns tno)
      (h : create_move db item fromSlot toSlot qty occ actor note now tid tno = .ok (no, db')) :
      Reaches db'
  | count {db db' : Db} {item slot actor : String} {actual occ now : Int} {note : Option String}
      {cid aid cno ano no : String} (hr : Reaches db)
      (hid1 : FreshId db.txns cid) (hid2 : FreshId db.txns aid) (hid12 : cid ≠ aid)
      (hno1 : FreshNo db.txns cno) (hno2 : FreshNo db.txns ano) (hno12 : cno ≠ ano)
      (h : create_count db item slot actual occ actor note now cid aid cno ano = .ok (no, db')) :
      Reaches db'
  | reversal {db db' : Db} {txnNo actor : String} {occ now : Int} {note : Option String}
      {rid rno no : String} (hr : Reaches db) (hid : FreshId db.txns rid) (hno : FreshNo db.txns rno)
      (h : reverse_txn db txnNo occ actor note now rid rno = .ok (no, db')) :
      Reaches db'

/-- Every REVERSAL row's reference resolves inside the ledger itself. -/
def WfRefs (txns : List TxnRow) : Prop :=
  ∀ r ∈ txns, r.txn_type = "REVERSAL" → ∃ t ∈ txns, r.ref_txn_id = some t.id

/-- Every REVERSAL row references a committed row of a reversible kind. -/
def RefTargets (txns : List TxnRow) : Prop :=
  ∀ r ∈ txns, r.txn_type = "REVERSAL" →
    ∃ t ∈ txns, r.ref_txn_id = some t.id ∧ ¬(t.txn_type = "REVERSAL" ∨ t.txn_type = "COUNT")

/-- `qty` is non-negative on rows of the four directly-recorded kinds. -/
def KindQty (txns : List TxnRow) : Prop :=
  ∀ r ∈ txns,
    (r.txn_type = "IN" ∨ r.txn_type = "OUT" ∨ r.txn_type = "MOVE" ∨ r.txn_type = "COUNT") →
    0 ≤ r.qty

/-- The full invariant maintained by the committed ledger operations. -/
def Inv (db : Db) : Prop :=
  IdsNodup db.txns ∧
  RefTargets db.txns ∧
  (∀ r ∈ db.txns, r.txn_type ≠ "REVERSAL" → r.ref_txn_id = none) ∧
  KindQty db.txns ∧
  StockNonNeg db.stock ∧
  ∀ item slot, stockQty db item slot = ledgerSum db.txns item slot

/-- A concrete active operator, used for concrete executions below. -/
def opBob : OperatorRow := ⟨"op1", "active"⟩

/-- An empty database with one active operator. -/
def dbEmpty : Db := ⟨[opBob], [], []⟩

/-- The database after one committed Inbound of 5 units of "itemA" into "slotA". -/
def dbFive : Db :=
  ⟨[opBob], [inboundRow "id1" "T1" 0 7 "op1" "itemA" "slotA" 5 none],
    [⟨"itemA", "slotA", 5, 7⟩]⟩

/-- `dbFive` after a committed Outbound of the full 5 units from "slotA". -/
def dbDrained : Db :=
  ⟨[opBob],
   [inboundRow "id1" "T1" 0 7 "op1" "itemA" "slotA" 5 none,
    outboundRow "id2" "T2" 0 8 "op1" "itemA" "slotA" 5 none],
   [⟨"itemA", "slotA", 0, 8⟩]⟩

/-- `dbFive` after a committed Count with actual quantity 10 (prior 5). -/
def dbCounted : Db :=
  ⟨[opBob],
   [inboundRow "id1" "T1" 0 7 "op1" "itemA" "slotA" 5 none,
    countRow "c1" "TC" 2 9 "op1" "itemA" "slotA" 10 none,
    adjustRow "a1" "TA" 2 9 "op1" "itemA" "slotA" 5 none],
   [⟨"itemA", "slotA", 10, 9⟩]⟩

/-- `dbFive` after a committed Reversal of the Inbound "T1". -/
def dbRev1 : Db :=
  ⟨[opBob],
   [inboundRow "id1" "T1" 0 7 "op1" "itemA" "slotA" 5 none,
    reversalRow "r1" "TR1" 3 10 "op1" (inboundRow "id1" "T1" 0 7 "op1" "itemA" "slotA" 5 none) none],
   [⟨"itemA", "slotA", 0, 10⟩]⟩

/-- A database holding the maximal `i64` quantity, to probe the absence of an
upper-bound check. -/
def dbHuge : Db := ⟨[opBob], [], [⟨"itemA", "slotA", 9223372036854775807, 0⟩]⟩

/-! ### Lemmas about the stock store primitives -/

theorem get_setStockEntry (stock : List StockEntry) (item slot : String) (q t : Int)
    (i s : String) :
    get_stock_tx (setStockEntry stock item slot q t) i s
      = if i = item ∧ s = slot then some q else get_stock_tx stock i s := by
  induction stock with
  | nil =>
    simp only [setStockEntry, get_stock_tx]
    split_ifs with h1 h2 <;> simp_all
  | cons e rest ih =>
    simp only [setStockEntry]
    by_cases hm : e.item_id = item ∧ e.slot_id = slot
    · rw [if_pos hm]
      obtain ⟨hm1, hm2⟩ := hm
      subst hm1; subst hm2
      simp only [get_stock_tx]
      by_cases h : e.item_id = i ∧ e.slot_id = s
      · obtain ⟨h1, h2⟩ := h
        subst h1; subst h2
        simp
      · have h' : ¬(i = e.item_id ∧ s = e.slot_id) := fun ⟨a, b⟩ => h ⟨a.symm, b.symm⟩
        rw [if_neg h, if_neg h', if_neg h]
    · rw [if_neg hm]
      simp only [get_stock_tx]
      by_cases hg : e.item_id = i ∧ e.slot_id = s
      · have hout : ¬(i = item ∧ s = slot) := fun ⟨a, b⟩ =>
          hm ⟨hg.1.trans a, hg.2.trans b⟩
        rw [if_pos hg, if_neg hout, if_pos hg]
      · rw [if_neg hg, if_neg hg]
        exact ih

theorem setStockEntry_nonneg {stock : List StockEntry} {q : Int} (hnn : StockNonNeg stock)
    (hq : 0 ≤ q) (item slot : String) (t : Int) :
    StockNonNeg (setStockEntry stock item slot q t) := by
  induction stock with
  | nil =>
    intro e he
    simp only [setStockEntry, List.mem_singleton] at he
    subst he; exact hq
  | cons a rest ih =>
    have hrest : StockNonNeg rest := fun e he => hnn e (List.mem_cons_of_mem a he)
    intro e he
    simp only [setStockEntry] at he
    split at he
    · rcases List.mem_cons.mp he with h | h
      · subst h; exact hq
      · exact hnn e (List.mem_cons_of_mem a h)
    · rcases List.mem_cons.mp he with h | h
      · subst h; exact hnn e (List.mem_cons_self _ _)
      · exact ih hrest e h

theorem get_stock_tx_nonneg {stock : List StockEntry} (hnn : StockNonNeg stock)
    (i s : String) : 0 ≤ (get_stock_tx stock i s).getD 0 := by
  induction stock with
  | nil => simp [get_stock_tx]
  | cons e rest ih =>
    have hrest : StockNonNeg rest := fun x hx => hnn x (List.mem_cons_of_mem e hx)
    simp only [get_stock_tx]
    split
    · exact hnn e (List.mem_cons_self _ _)
    · exact ih hrest

theorem upsert_stock_tx_neg {qty : Int} (stock : List StockEntry) (item slot : String)
    (t : Int) (h : qty < 0) :
    upsert_stock_tx stock item slot qty t = .error .ValidationError := by
  simp [upsert_stock_tx, h]

theorem upsert_stock_tx_ok {qty : Int} (stock : List StockEntry) (item slot : String)
    (t : Int) (h : 0 ≤ qty) :
    upsert_stock_tx stock item slot qty t = .ok (setStockEntry stock item slot qty t) := by
  simp [upsert_stock_tx, not_lt.mpr h]

theorem upsert_stock_tx_nonneg {stock stock' : List StockEntry} {item slot : String}
    {qty t : Int} (hnn : StockNonNeg stock)
    (h : upsert_stock_tx stock item slot qty t = .ok stock') :
    StockNonNeg stock' := by
  by_cases hq : qty < 0
  · rw [upsert_stock_tx_neg _ _ _ _ hq] at h; cases h
  · rw [upsert_stock_tx_ok _ _ _ _ (not_lt.mp hq)] at h
    cases h
    exact setStockEntry_nonneg hnn (not_lt.mp hq) item slot t

theorem apply_stock_delta_ok (stock : List StockEntry) (item slot : String) (delta now : Int)
    (h : 0 ≤ (get_stock_tx stock item slot).getD 0 + delta) :
    apply_stock_delta stock item slot delta now
      = .ok (setStockEntry stock item slot ((get_stock_tx stock item slot).getD 0 + delta) now) := by
  simp only [apply_stock_delta]
  rw [if_neg (not_lt.mpr h)]
  exact upsert_stock_tx_ok _ _ _ _ h

theorem apply_stock_delta_err (stock : List StockEntry) (item slot : String) (delta now : Int)
    (h : (get_stock_tx stock item slot).getD 0 + delta < 0) :
    apply_stock_delta stock item slot delta now = .error .InsufficientStock := by
  simp only [apply_stock_delta]
  rw [if_pos h]

theorem apply_stock_delta_nonneg {stock stock' : List StockEntry} {item slot : String}
    {delta now : Int} (hnn : StockNonNeg stock)
    (h : apply_stock_delta stock item slot delta now = .ok stock') :
    StockNonNeg stock' := by
  simp only [apply_stock_delta] at h
  split at h
  · cases h
  · exact upsert_stock_tx_nonneg hnn h

/-! ### Lemmas about the ledger store primitives -/

theorem get_txn_by_no_mem {txns : List TxnRow} {no : String} {r : TxnRow}
    (h : get_txn_by_no txns no = some r) : r ∈ txns ∧ r.txn_no = no := by
  induction txns with
  | nil => cases h
  | cons a rest ih =>
    simp only [get_txn_by_no] at h
    split at h
    · cases h
      exact ⟨List.mem_cons_self _ _, by assumption⟩
    · obtain ⟨h1, h2⟩ := ih h
      exact ⟨List.mem_cons_of_mem a h1, h2⟩

theorem get_txn_by_no_append_left {txns : List TxnRow} {no : String} {r : TxnRow}
    (extra : List TxnRow) (h : get_txn_by_no txns no = some r) :
    get_txn_by_no (txns ++ extra) no = some r := by
  induction txns with
  | nil => cases h
  | cons a rest ih =>
    simp only [get_txn_by_no, List.cons_append] at h ⊢
    split at h
    · cases h; simp_all [get_txn_by_no]
    · simp_all [get_txn_by_no]

theorem find_txn_by_id_mem {txns : List TxnRow} {i : String} {r : TxnRow}
    (h : find_txn_by_id txns i = some r) : r ∈ txns ∧ r.id = i := by
  induction txns with
  | nil => cases h
  | cons a rest ih =>
    simp only [find_txn_by_id] at h
    split at h
    · cases h
      exact ⟨List.mem_cons_self _ _, by assumption⟩
    · obtain ⟨h1, h2⟩ := ih h
      exact ⟨List.mem_cons_of_mem a h1, h2⟩

theorem find_txn_by_id_append_left {txns : List TxnRow} {i : String} {r : TxnRow}
    (extra : List TxnRow) (h : find_txn_by_id txns i = some r) :
    find_txn_by_id (txns ++ extra) i = some r := by
  induction txns with
  | nil => cases h
  | cons a rest ih =>
    simp only [find_txn_by_id, List.cons_append] at h ⊢
    split at h
    · cases h; simp_all [find_txn_by_id]
    · simp_all [find_txn_by_id]

theorem find_txn_by_id_isSome_of_mem {txns : List TxnRow} {t : TxnRow} (h : t ∈ txns) :
    ∃ u, find_txn_by_id txns t.id = some u := by
  induction txns with
  | nil => cases h
  | cons a rest ih =>
    simp only [find_txn_by_id]
    split
    · exact ⟨a, rfl⟩
    · rcases List.mem_cons.mp h with rfl | hm
      · simp_all
      · exact ih hm

theorem find_txn_by_id_of_nodup {txns : List TxnRow} {t : TxnRow} (hnd : IdsNodup txns)
    (hm : t ∈ txns) : find_txn_by_id txns t.id = some t := by
  induction txns with
  | nil => cases hm
  | cons a rest ih =>
    simp only [IdsNodup, List.map_cons, List.nodup_cons] at hnd
    obtain ⟨hna, hnrest⟩ := hnd
    simp only [find_txn_by_id]
    rcases List.mem_cons.mp hm with rfl | hmem
    · simp
    · split
      · exfalso
        apply hna
        have : t.id ∈ rest.map TxnRow.id := List.mem_map_of_mem TxnRow.id hmem
        simp_all
      · exact ih hnrest hmem

/-! ### Effect stability under ledger append -/

theorem rowEffect_append {txns : List TxnRow} {r : TxnRow} (extra : List TxnRow)
    (hwf : r.txn_type = "REVERSAL" → ∃ t ∈ txns, r.ref_txn_id = some t.id)
    (item slot : String) :
    rowEffect (txns ++ extra) r item slot = rowEffect txns r item slot := by
  by_cases hrev : r.txn_type = "REVERSAL"
  · obtain ⟨t, hmem, href⟩ := hwf hrev
    obtain ⟨u, hu⟩ := find_txn_by_id_isSome_of_mem hmem
    simp only [rowEffect, if_pos hrev, href, hu, find_txn_by_id_append_left extra hu]
  · simp only [rowEffect, if_neg hrev]

theorem rowEffect_of_not_reversal {txns : List TxnRow} {r : TxnRow}
    (h : ¬r.txn_type = "REVERSAL") (item slot : String) :
    rowEffect txns r item slot = baseEffect r item slot := by
  simp only [rowEffect, if_neg h]

theorem ledgerSum_append {txns : List TxnRow} (extra : List TxnRow) (hwf : WfRefs txns)
    (item slot : String) :
    ledgerSum (txns ++ extra) item slot
      = ledgerSum txns item slot
        + (extra.map fun r => rowEffect (txns ++ extra) r item slot).sum := by
  simp only [ledgerSum, List.map_append, List.sum_append]
  congr 2
  exact List.map_congr_left fun a ha => rowEffect_append extra (hwf a ha) item slot

/-! ### Inversion lemmas: what a successful operation did -/

theorem upsert_stock_tx_inv {stock stock' : List StockEntry} {item slot : String}
    {qty t : Int} (h : upsert_stock_tx stock item slot qty t = .ok stock') :
    0 ≤ qty ∧ stock' = setStockEntry stock item slot qty t := by
  simp only [upsert_stock_tx] at h
  split at h
  · cases h
  · cases h
    exact ⟨not_lt.mp (by assumption), rfl⟩

theorem apply_stock_delta_inv {stock stock' : List StockEntry} {item slot : String}
    {delta now : Int} (h : apply_stock_delta stock item slot delta now = .ok stock') :
    0 ≤ (get_stock_tx stock item slot).getD 0 + delta ∧
    stock' = setStockEntry stock item slot ((get_stock_tx stock item slot).getD 0 + delta) now := by
  simp only [apply_stock_delta] at h
  split at h
  · cases h
  · exact upsert_stock_tx_inv h

theorem create_inbound_inv {db db' : Db} {item slot actor no : String} {qty occ now : Int}
    {note : Option String} {tid tno : String}
    (h : create_inbound db item slot qty occ actor note now tid tno = .ok (no, db')) :
    ∃ operator,
      require_active_operator_by_id db.operators actor = .ok operator ∧
      0 < qty ∧ no = tno ∧
      0 ≤ (get_stock_tx db.stock item slot).getD 0 + qty ∧
      db'.operators = db.operators ∧
      db'.txns = db.txns ++ [inboundRow tid tno occ now operator.id item slot qty note] ∧
      db'.stock = setStockEntry db.stock item slot
        ((get_stock_tx db.stock item slot).getD 0 + qty) now := by
  simp only [create_inbound] at h
  split at h
  · cases h
  · split at h
    · cases h
    · rename_i operator hop
      split at h
      · cases h
      · rename_i stock1 hup
        cases h
        obtain ⟨hq, hset⟩ := upsert_stock_tx_inv hup
        refine ⟨operator, hop, by omega, rfl, hq, rfl, by simp [insert_txn], by simp [hset]⟩

theorem create_outbound_inv {db db' : Db} {item slot actor no : String} {qty occ now : Int}
    {note : Option String} {tid tno : String}
    (h : create_outbound db item slot qty occ actor note now tid tno = .ok (no, db')) :
    ∃ operator,
      require_active_operator_by_id db.operators actor = .ok operator ∧
      0 < qty ∧ no = tno ∧
      qty ≤ (get_stock_tx db.stock item slot).getD 0 ∧
      db'.operators = db.operators ∧
      db'.txns = db.txns ++ [outboundRow tid tno occ now operator.id item slot qty note] ∧
      db'.stock = setStockEntry db.stock item slot
        ((get_stock_tx db.stock item slot).getD 0 - qty) now := by
  simp only [create_outbound] at h
  split at h
  · cases h
  · split at h
    · cases h
    · rename_i operator hop
      split at h
      · cases h
      · rename_i hcur
        split at h
        · cases h
        · rename_i stock1 hup
          cases h
          obtain ⟨hq, hset⟩ := upsert_stock_tx_inv hup
          refine ⟨operator, hop, by omega, rfl, by omega, rfl, by simp [insert_txn], by simp [hset]⟩

theorem create_move_inv {db db' : Db} {item fromSlot toSlot actor no : String}
    {qty occ now : Int} {note : Option String} {tid tno : String}
    (h : create_move db item fromSlot toSlot qty occ actor note now tid tno = .ok (no, db')) :
    ∃ operator,
      require_active_operator_by_id db.operators actor = .ok operator ∧
      0 < qty ∧ fromSlot ≠ toSlot ∧ no = tno ∧
      qty ≤ (get_stock_tx db.stock item fromSlot).getD 0 ∧
      0 ≤ (get_stock_tx db.stock item toSlot).getD 0 + qty ∧
      db'.operators = db.operators ∧
      db'.txns = db.txns ++ [moveRow tid tno occ now operator.id item fromSlot toSlot qty note] ∧
      db'.stock = setStockEntry
        (setStockEntry db.stock item fromSlot ((get_stock_tx db.stock item fromSlot).getD 0 - qty) now)
        item toSlot ((get_stock_tx db.stock item toSlot).getD 0 + qty) now := by
  simp only [create_move] at h
  split at h
  · cases h
  · split at h
    · cases h
    · rename_i hq0 hslots
      split at h
      · cases h
      · rename_i operator hop
        split at h
        · cases h
        · rename_i hcur
          split at h
          · cases h
          · rename_i stock1 hup1
            split at h
            · cases h
            · rename_i stock2 hup2
              cases h
              obtain ⟨hq1, hset1⟩ := upsert_stock_tx_inv hup1
              subst hset1
              obtain ⟨hq2, hset2⟩ := upsert_stock_tx_inv hup2
              have hget : get_stock_tx
                  (setStockEntry db.stock item fromSlot ((get_stock_tx db.stock item fromSlot).getD 0 - qty) now)
                  item toSlot = get_stock_tx db.stock item toSlot := by
                rw [get_setStockEntry]
                rw [if_neg]
                intro ⟨_, hts⟩
                exact hslots hts.symm
              rw [hget] at hq2 hset2
              refine ⟨operator, hop, by omega, fun hh => hslots hh, rfl, by omega, hq2, rfl,
                by simp [insert_txn], by simp [hset2]⟩

theorem create_count_inv {db db' : Db} {item slot actor no : String} {actual occ now : Int}
    {note : Option String} {cid aid cno ano : String}
    (h : create_count db item slot actual occ actor note now cid aid cno ano = .ok (no, db')) :
    ∃ operator,
      require_active_operator_by_id db.operators actor = .ok operator ∧
      0 ≤ actual ∧ no = cno ∧
      db'.operators = db.operators ∧
      db'.txns = db.txns
        ++ [countRow cid cno occ now operator.id item slot actual note,
            adjustRow aid ano occ now operator.id item slot
              (actual - (get_stock_tx db.stock item slot).getD 0) note] ∧
      db'.stock = setStockEntry db.stock item slot actual now := by
  simp only [create_count] at h
  split at h
  · cases h
  · rename_i hneg
    split at h
    · cases h
    · rename_i operator hop
      split at h
      · cases h
      · rename_i stock1 hup
        cases h
        obtain ⟨hq, hset⟩ := upsert_stock_tx_inv hup
        refine ⟨operator, hop, by omega, rfl, rfl, by simp [insert_txn], by simp [hset]⟩

theorem reverse_txn_inv {db db' : Db} {txnNo actor no : String} {occ now : Int}
    {note : Option String} {rid rno : String}
    (h : reverse_txn db txnNo occ actor note now rid rno = .ok (no, db')) :
    ∃ operator target,
      require_active_operator_by_id db.operators actor = .ok operator ∧
      get_txn_by_no db.txns txnNo = some target ∧
      ¬(target.txn_type = "REVERSAL" ∨ target.txn_type = "COUNT") ∧
      ¬has_reversal db.txns target.id ∧
      no = rno ∧
      db'.operators = db.operators ∧
      db'.txns = db.txns ++ [reversalRow rid rno occ now operator.id target note] ∧
      reverseStockEffect db.stock target now = .ok db'.stock := by
  simp only [reverse_txn] at h
  split at h
  · cases h
  · rename_i operator hop
    split at h
    · cases h
    · rename_i target htgt
      split at h
      · cases h
      · rename_i hkind
        split at h
        · cases h
        · rename_i hrev
          split at h
          · cases h
          · rename_i stock1 heff
            cases h
            exact ⟨operator, target, hop, htgt, hkind, hrev, rfl, rfl, by simp [insert_txn], by simp [heff]⟩

/-! ### The ledger/stock invariant and its preservation -/

theorem refTargets_wfRefs {txns : List TxnRow} (h : RefTargets txns) : WfRefs txns :=
  fun r hr hrev => by
    obtain ⟨t, hmem, href, _⟩ := h r hr hrev
    exact ⟨t, hmem, href⟩

theorem idsNodup_append_one {txns : List TxnRow} {row : TxnRow} (hnd : IdsNodup txns)
    (hf : FreshId txns row.id) : IdsNodup (txns ++ [row]) := by
  simp only [IdsNodup, List.map_append, List.map_cons, List.map_nil]
  refine List.Nodup.append hnd (List.nodup_singleton _) ?_
  intro a ha hb
  simp only [List.mem_singleton] at hb
  subst hb
  obtain ⟨r, hr, hrid⟩ := List.mem_map.mp ha
  exact hf r hr hrid

theorem idsNodup_append_two {txns : List TxnRow} {r1 r2 : TxnRow} (hnd : IdsNodup txns)
    (hf1 : FreshId txns r1.id) (hf2 : FreshId txns r2.id) (h12 : r1.id ≠ r2.id) :
    IdsNodup (txns ++ [r1, r2]) := by
  simp only [IdsNodup, List.map_append, List.map_cons, List.map_nil]
  refine List.Nodup.append hnd ?_ ?_
  · simp [h12]
  · intro a ha hb
    obtain ⟨r, hr, hrid⟩ := List.mem_map.mp ha
    simp only [List.mem_cons, List.mem_singleton, List.not_mem_nil, or_false] at hb
    rcases hb with hb | hb
    · exact hf1 r hr (hb ▸ hrid)
    · exact hf2 r hr (hb ▸ hrid)

theorem reverseStockEffect_nonneg {stock stock' : List StockEntry} {target : TxnRow}
    {now : Int} (hnn : StockNonNeg stock)
    (h : reverseStockEffect stock target now = .ok stock') : StockNonNeg stock' := by
  simp only [reverseStockEffect] at h
  split_ifs at h
  · split at h
    · cases h
    · exact apply_stock_delta_nonneg hnn h
  · split at h
    · cases h
    · exact apply_stock_delta_nonneg hnn h
  · split at h
    · rename_i fs ts hfs hts
      split at h
      · cases h
      · rename_i stock1 h1
        exact apply_stock_delta_nonneg (apply_stock_delta_nonneg hnn h1) h
    · cases h
  · split at h
    · cases h
    · exact apply_stock_delta_nonneg hnn h

/-! ### Effects of the concrete row literals -/

theorem baseEffect_inboundRow (tid tno : String) (occ now : Int) (opid item slot : String)
    (qty : Int) (note : Option String) (i s : String) :
    baseEffect (inboundRow tid tno occ now opid item slot qty note) i s
      = if item = i ∧ slot = s then qty else 0 := by
  simp [baseEffect, inboundRow]

theorem baseEffect_outboundRow (tid tno : String) (occ now : Int) (opid item slot : String)
    (qty : Int) (note : Option String) (i s : String) :
    baseEffect (outboundRow tid tno occ now opid item slot qty note) i s
      = if item = i ∧ slot = s then -qty else 0 := by
  simp [baseEffect, outboundRow]

theorem baseEffect_moveRow (tid tno : String) (occ now : Int) (opid item fromSlot toSlot : String)
    (qty : Int) (note : Option String) (i s : String) :
    baseEffect (moveRow tid tno occ now opid item fromSlot toSlot qty note) i s
      = (if item = i ∧ toSlot = s then qty else 0)
        + (if item = i ∧ fromSlot = s then -qty else 0) := by
  simp [baseEffect, moveRow]

theorem baseEffect_countRow (tid tno : String) (occ now : Int) (opid item slot : String)
    (actual : Int) (note : Option String) (i s : String) :
    baseEffect (countRow tid tno occ now opid item slot actual note) i s = 0 := by
  simp [baseEffect, countRow]

theorem baseEffect_adjustRow (tid tno : String) (occ now : Int) (opid item slot : String)
    (delta : Int) (note : Option String) (i s : String) :
    baseEffect (adjustRow tid tno occ now opid item slot delta note) i s
      = if item = i ∧ slot = s then delta else 0 := by
  simp [baseEffect, adjustRow]

theorem inv_inbound {db db' : Db} {item slot actor no : String} {qty occ now : Int}
    {note : Option String} {tid tno : String} (hInv : Inv db) (hid : FreshId db.txns tid)
    (h : create_inbound db item slot qty occ actor note now tid tno = .ok (no, db')) :
    Inv db' := by
  obtain ⟨hnd, hrt, hrefnone, hkq, hnn, hsum⟩ := hInv
  obtain ⟨operator, hop, hq, hno', hb, hops, htx, hst⟩ := create_inbound_inv h
  refine ⟨?_, ?_, ?_, ?_, ?_, ?_⟩
  · rw [htx]
    exact idsNodup_append_one hnd hid
  · rw [htx]
    intro r hr hrev
    rcases List.mem_append.mp hr with hmem | hmem
    · obtain ⟨t, htm, href, htk⟩ := hrt r hmem hrev
      exact ⟨t, List.mem_append_left _ htm, href, htk⟩
    · simp only [List.mem_singleton] at hmem
      subst hmem
      simp [inboundRow] at hrev
  · rw [htx]
    intro r hr hneq
    rcases List.mem_append.mp hr with hmem | hmem
    · exact hrefnone r hmem hneq
    · simp only [List.mem_singleton] at hmem
      subst hmem
      simp [inboundRow]
  · rw [htx]
    intro r hr hk
    rcases List.mem_append.mp hr with hmem | hmem
    · exact hkq r hmem hk
    · simp only [List.mem_singleton] at hmem
      subst hmem
      simp only [inboundRow]
      omega
  · rw [hst]
    exact setStockEntry_nonneg hnn hb item slot now
  · intro i s
    have hwf := refTargets_wfRefs hrt
    have hIH := hsum i s
    rw [stockQty] at hIH ⊢
    rw [hst, htx, get_setStockEntry, ledgerSum_append _ hwf i s]
    rw [List.map_singleton, List.sum_singleton]
    rw [rowEffect_of_not_reversal (by simp [inboundRow]) i s, baseEffect_inboundRow]
    by_cases h1 : i = item <;> by_cases h2 : s = slot <;> simp_all [eq_comm]

theorem inv_outbound {db db' : Db} {item slot actor no : String} {qty occ now : Int}
    {note : Option String} {tid tno : String} (hInv : Inv db) (hid : FreshId db.txns tid)
    (h : create_outbound db item slot qty occ actor note now tid tno = .ok (no, db')) :
    Inv db' := by
  obtain ⟨hnd, hrt, hrefnone, hkq, hnn, hsum⟩ := hInv
  obtain ⟨operator, hop, hq, hno', hb, hops, htx, hst⟩ := create_outbound_inv h
  refine ⟨?_, ?_, ?_, ?_, ?_, ?_⟩
  · rw [htx]
    exact idsNodup_append_one hnd hid
  · rw [htx]
    intro r hr hrev
    rcases List.mem_append.mp hr with hmem | hmem
    · obtain ⟨t, htm, href, htk⟩ := hrt r hmem hrev
      exact ⟨t, List.mem_append_left _ htm, href, htk⟩
    · simp only [List.mem_singleton] at hmem
      subst hmem
      simp [outboundRow] at hrev
  · rw [htx]
    intro r hr hneq
    rcases List.mem_append.mp hr with hmem | hmem
    · exact hrefnone r hmem hneq
    · simp only [List.mem_singleton] at hmem
      subst hmem
      simp [outboundRow]
  · rw [htx]
    intro r hr hk
    rcases List.mem_append.mp hr with hmem | hmem
    · exact hkq r hmem hk
    · simp only [List.mem_singleton] at hmem
      subst hmem
      simp only [outboundRow]
      omega
  · rw [hst]
    exact setStockEntry_nonneg hnn (by omega) item slot now
  · intro i s
    have hwf := refTargets_wfRefs hrt
    have hIH := hsum i s
    rw [stockQty] at hIH ⊢
    rw [hst, htx, get_setStockEntry, ledgerSum_append _ hwf i s]
    rw [List.map_singleton, List.sum_singleton]
    rw [rowEffect_of_not_reversal (by simp [outboundRow]) i s, baseEffect_outboundRow]
    by_cases h1 : i = item <;> by_cases h2 : s = slot <;> simp_all [eq_comm] <;> omega

theorem inv_count {db db' : Db} {item slot actor no : String} {actual occ now : Int}
    {note : Option String} {cid aid cno ano : String} (hInv : Inv db)
    (hid1 : FreshId db.txns cid) (hid2 : FreshId db.txns aid) (hid12 : cid ≠ aid)
    (h : create_count db item slot actual occ actor note now cid aid cno ano = .ok (no, db')) :
    Inv db' := by
  obtain ⟨hnd, hrt, hrefnone, hkq, hnn, hsum⟩ := hInv
  obtain ⟨operator, hop, hq, hno', hops, htx, hst⟩ := create_count_inv h
  refine ⟨?_, ?_, ?_, ?_, ?_, ?_⟩
  · rw [htx]
    exact idsNodup_append_two hnd hid1 hid2 hid12
  · rw [htx]
    intro r hr hrev
    rcases List.mem_append.mp hr with hmem | hmem
    · obtain ⟨t, htm, href, htk⟩ := hrt r hmem hrev
      exact ⟨t, List.mem_append_left _ htm, href, htk⟩
    · simp only [List.mem_cons, List.not_mem_nil, or_false] at hmem
      rcases hmem with hmem | hmem
      · subst hmem
        simp [countRow] at hrev
      · subst hmem
        simp [adjustRow] at hrev
  · rw [htx]
    intro r hr hneq
    rcases List.mem_append.mp hr with hmem | hmem
    · exact hrefnone r hmem hneq
    · simp only [List.mem_cons, List.not_mem_nil, or_false] at hmem
      rcases hmem with hmem | hmem
      · subst hmem
        simp [countRow]
      · subst hmem
        simp [adjustRow]
  · rw [htx]
    intro r hr hk
    rcases List.mem_append.mp hr with hmem | hmem
    · exact hkq r hmem hk
    · simp only [List.mem_cons, List.not_mem_nil, or_false] at hmem
      rcases hmem with hmem | hmem
      · subst hmem
        simp [countRow]
      · subst hmem
        simp only [adjustRow] at hk ⊢
        rcases hk with hk | hk | hk | hk <;> simp_all
  · rw [hst]
    exact setStockEntry_nonneg hnn hq item slot now
  · intro i s
    have hwf := refTargets_wfRefs hrt
    have hIH := hsum i s
    rw [stockQty] at hIH ⊢
    rw [hst, htx, get_setStockEntry, ledgerSum_append _ hwf i s]
    simp only [List.map_cons, List.map_nil, List.sum_cons, List.sum_nil]
    rw [rowEffect_of_not_reversal (by simp [countRow]) i s, baseEffect_countRow]
    rw [rowEffect_of_not_reversal (by simp [adjustRow]) i s, baseEffect_adjustRow]
    by_cases h1 : i = item <;> by_cases h2 : s = slot <;> simp_all [eq_comm] <;> omega

theorem inv_move {db db' : Db} {item fromSlot toSlot actor no : String} {qty occ now : Int}
    {note : Option String} {tid tno : String} (hInv : Inv db) (hid : FreshId db.txns tid)
    (h : create_move db item fromSlot toSlot qty occ actor note now tid tno = .ok (no, db')) :
    Inv db' := by
  obtain ⟨hnd, hrt, hrefnone, hkq, hnn, hsum⟩ := hInv
  obtain ⟨operator, hop, hq, hft, hno', hb1, hb2, hops, htx, hst⟩ := create_move_inv h
  refine ⟨?_, ?_, ?_, ?_, ?_, ?_⟩
  · rw [htx]
    exact idsNodup_append_one hnd hid
  · rw [htx]
    intro r hr hrev
    rcases List.mem_append.mp hr with hmem | hmem
    · obtain ⟨t, htm, href, htk⟩ := hrt r hmem hrev
      exact ⟨t, List.mem_append_left _ htm, href, htk⟩
    · simp only [List.mem_singleton] at hmem
      subst hmem
      simp [moveRow] at hrev
  · rw [htx]
    intro r hr hneq
    rcases List.mem_append.mp hr with hmem | hmem
    · exact hrefnone r hmem hneq
    · simp only [List.mem_singleton] at hmem
      subst hmem
      simp [moveRow]
  · rw [htx]
    intro r hr hk
    rcases List.mem_append.mp hr with hmem | hmem
    · exact hkq r hmem hk
    · simp only [List.mem_singleton] at hmem
      subst hmem
      simp only [moveRow]
      omega
  · rw [hst]
    exact setStockEntry_nonneg (setStockEntry_nonneg hnn (by omega) item fromSlot now) hb2
      item toSlot now
  · intro i s
    have hwf := refTargets_wfRefs hrt
    have hIH := hsum i s
    have hIHf := hsum item fromSlot
    have hIHt := hsum item toSlot
    rw [stockQty] at hIH hIHf hIHt ⊢
    rw [hst, htx, get_setStockEntry, get_setStockEntry, ledgerSum_append _ hwf i s]
    rw [List.map_singleton, List.sum_singleton]
    rw [rowEffect_of_not_reversal (by simp [moveRow]) i s, baseEffect_moveRow]
    by_cases h1 : i = item <;> by_cases h2 : s = toSlot <;> by_cases h3 : s = fromSlot <;>
      simp_all [eq_comm] <;> omega

theorem reverseStockEffect_inv {stock stock' : List StockEntry} {target : TxnRow} {now : Int}
    (h : reverseStockEffect stock target now = .ok stock') :
    (target.txn_type = "IN" ∧ ∃ ts, target.to_slot_id = some ts ∧
      0 ≤ (get_stock_tx stock target.item_id ts).getD 0 - target.qty ∧
      stock' = setStockEntry stock target.item_id ts
        ((get_stock_tx stock target.item_id ts).getD 0 - target.qty) now) ∨
    (target.txn_type = "OUT" ∧ ∃ fs, target.from_slot_id = some fs ∧
      0 ≤ (get_stock_tx stock target.item_id fs).getD 0 + target.qty ∧
      stock' = setStockEntry stock target.item_id fs
        ((get_stock_tx stock target.item_id fs).getD 0 + target.qty) now) ∨
    (target.txn_type = "MOVE" ∧ ∃ fs ts, target.from_slot_id = some fs ∧
      target.to_slot_id = some ts ∧
      0 ≤ (get_stock_tx stock target.item_id fs).getD 0 + target.qty ∧
      (0 ≤ (get_stock_tx (setStockEntry stock target.item_id fs
          ((get_stock_tx stock target.item_id fs).getD 0 + target.qty) now)
          target.item_id ts).getD 0 - target.qty ∧
      stock' = setStockEntry (setStockEntry stock target.item_id fs
          ((get_stock_tx stock target.item_id fs).getD 0 + target.qty) now)
        target.item_id ts
        ((get_stock_tx (setStockEntry stock target.item_id fs
          ((get_stock_tx stock target.item_id fs).getD 0 + target.qty) now)
          target.item_id ts).getD 0 - target.qty) now)) ∨
    (target.txn_type = "ADJUST" ∧ ∃ sl, target.from_slot_id = some sl ∧
      0 ≤ (get_stock_tx stock target.item_id sl).getD 0 - target.qty ∧
      stock' = setStockEntry stock target.item_id sl
        ((get_stock_tx stock target.item_id sl).getD 0 - target.qty) now) := by
  simp only [reverseStockEffect] at h
  split_ifs at h with h1 h2 h3 h4
  · left
    split at h
    · cases h
    · rename_i ts hts
      obtain ⟨hb, hset⟩ := apply_stock_delta_inv h
      rw [← sub_eq_add_neg] at hb hset
      exact ⟨h1, ts, hts, hb, hset⟩
  · right; left
    split at h
    · cases h
    · rename_i fs hfs
      obtain ⟨hb, hset⟩ := apply_stock_delta_inv h
      exact ⟨h2, fs, hfs, hb, hset⟩
  · right; right; left
    split at h
    · rename_i fs ts hfs hts
      split at h
      · cases h
      · rename_i stock1 hs1
        obtain ⟨hb1, hset1⟩ := apply_stock_delta_inv hs1
        subst hset1
        obtain ⟨hb2, hset2⟩ := apply_stock_delta_inv h
        rw [← sub_eq_add_neg] at hb2 hset2
        exact ⟨h3, fs, ts, hfs, hts, hb1, hb2, hset2⟩
    · cases h
  · right; right; right
    split at h
    · cases h
    · rename_i sl hsl
      obtain ⟨hb, hset⟩ := apply_stock_delta_inv h
      rw [← sub_eq_add_neg] at hb hset
      exact ⟨h4, sl, hsl, hb, hset⟩

theorem double_set_pointwise (stock : List StockEntry) (tI fs ts : String) (q now : Int)
    (L : String → String → Int) (hL : ∀ i s, (get_stock_tx stock i s).getD 0 = L i s)
    (i s : String) :
    (get_stock_tx (setStockEntry (setStockEntry stock tI fs
        ((get_stock_tx stock tI fs).getD 0 + q) now) tI ts
        ((get_stock_tx (setStockEntry stock tI fs
          ((get_stock_tx stock tI fs).getD 0 + q) now) tI ts).getD 0 - q) now) i s).getD 0
      = L i s + -((if tI = i ∧ ts = s then q else 0) + (if tI = i ∧ fs = s then -q else 0)) := by
  have hLff := hL tI fs
  have hLtt := hL tI ts
  have hLis := hL i s
  simp only [get_setStockEntry]
  by_cases h4 : ts = fs
  · rw [h4] at hLtt ⊢
    by_cases h1 : i = tI
    · rw [h1] at hLis ⊢
      by_cases h2 : s = fs
      · rw [h2] at hLis ⊢
        simp only [eq_self_iff_true, and_self, true_and, if_true, Option.getD_some]
        omega
      · simp only [eq_self_iff_true, true_and,
          if_neg h2, if_neg (show ¬fs = s from fun hh => h2 hh.symm)]
        omega
    · simp only [if_neg (show ¬(i = tI ∧ s = fs) from fun hc => h1 hc.1),
        if_neg (show ¬(tI = i ∧ fs = s) from fun hc => h1 hc.1.symm)]
      omega
  · by_cases h1 : i = tI
    · rw [h1] at hLis ⊢
      by_cases h2 : s = ts
      · rw [h2] at hLis ⊢
        simp only [eq_self_iff_true, and_self, true_and, if_true, Option.getD_some,
          if_neg h4, if_neg (show ¬fs = ts from fun hh => h4 hh.symm)]
        omega
      · by_cases h3 : s = fs
        · rw [h3] at hLis ⊢
          simp only [eq_self_iff_true, and_self, true_and, if_true, Option.getD_some,
            if_neg h4, if_neg (show ¬ts = fs from h4),
            if_neg (show ¬fs = ts from fun hh => h4 hh.symm)]
          omega
        · simp only [eq_self_iff_true, true_and, Option.getD_some,
            if_neg h4, if_neg h2, if_neg h3,
            if_neg (show ¬ts = s from fun hh => h2 hh.symm),
            if_neg (show ¬fs = s from fun hh => h3 hh.symm)]
          omega
    · simp only [eq_self_iff_true, true_and,
        if_neg (show ¬(i = tI ∧ s = ts) from fun hc => h1 hc.1),
        if_neg (show ¬(i = tI ∧ s = fs) from fun hc => h1 hc.1),
        if_neg (show ¬(tI = i ∧ ts = s) from fun hc => h1 hc.1.symm),
        if_neg (show ¬(tI = i ∧ fs = s) from fun hc => h1 hc.1.symm)]
      omega

theorem inv_reversal {db db' : Db} {txnNo actor no : String} {occ now : Int}
    {note : Option String} {rid rno : String} (hInv : Inv db) (hid : FreshId db.txns rid)
    (h : reverse_txn db txnNo occ actor note now rid rno = .ok (no, db')) : Inv db' := by
  obtain ⟨hnd, hrt, hrefnone, hkq, hnn, hsum⟩ := hInv
  obtain ⟨operator, target, hop, htgt, hkind, hrv, hno', hops, htx, heff⟩ := reverse_txn_inv h
  obtain ⟨htmem, htno⟩ := get_txn_by_no_mem htgt
  have hfind : find_txn_by_id db.txns target.id = some target :=
    find_txn_by_id_of_nodup hnd htmem
  refine ⟨?_, ?_, ?_, ?_, ?_, ?_⟩
  · rw [htx]
    exact idsNodup_append_one hnd hid
  · rw [htx]
    intro r hr hrevt
    rcases List.mem_append.mp hr with hmem | hmem
    · obtain ⟨t, htm, href, htk⟩ := hrt r hmem hrevt
      exact ⟨t, List.mem_append_left _ htm, href, htk⟩
    · simp only [List.mem_singleton] at hmem
      subst hmem
      exact ⟨target, List.mem_append_left _ htmem, rfl, hkind⟩
  · rw [htx]
    intro r hr hneq
    rcases List.mem_append.mp hr with hmem | hmem
    · exact hrefnone r hmem hneq
    · simp only [List.mem_singleton] at hmem
      subst hmem
      simp [reversalRow] at hneq
  · rw [htx]
    intro r hr hk
    rcases List.mem_append.mp hr with hmem | hmem
    · exact hkq r hmem hk
    · simp only [List.mem_singleton] at hmem
      subst hmem
      simp [reversalRow] at hk
  · exact reverseStockEffect_nonneg hnn heff
  · intro i s
    have hwf := refTargets_wfRefs hrt
    have hIH := hsum i s
    rw [stockQty] at hIH ⊢
    rw [htx, ledgerSum_append _ hwf i s, List.map_singleton, List.sum_singleton]
    have hrow : rowEffect (db.txns ++ [reversalRow rid rno occ now operator.id target note])
        (reversalRow rid rno occ now operator.id target note) i s = -baseEffect target i s := by
      simp [rowEffect, reversalRow, find_txn_by_id_append_left _ hfind]
    rw [hrow]
    rcases reverseStockEffect_inv heff with
      ⟨hty, ts, hts, hb, hset⟩ | ⟨hty, fs, hfs, hb, hset⟩ |
      ⟨hty, fs, ts, hfs, hts, hb1, hb2, hset⟩ | ⟨hty, sl, hsl, hb, hset⟩
    · have hbe : baseEffect target i s
          = if target.item_id = i ∧ ts = s then target.qty else 0 := by
        simp [baseEffect, hty, hts]
      rw [hbe, hset, get_setStockEntry]
      have hIHp := hsum target.item_id ts
      rw [stockQty] at hIHp
      by_cases h1 : i = target.item_id <;> by_cases h2 : s = ts <;>
        simp_all [eq_comm] <;> omega
    · have hbe : baseEffect target i s
          = if target.item_id = i ∧ fs = s then -target.qty else 0 := by
        simp [baseEffect, hty, hfs]
      rw [hbe, hset, get_setStockEntry]
      have hIHp := hsum target.item_id fs
      rw [stockQty] at hIHp
      by_cases h1 : i = target.item_id <;> by_cases h2 : s = fs <;>
        simp_all [eq_comm] <;> omega
    · have hbe : baseEffect target i s
          = (if target.item_id = i ∧ ts = s then target.qty else 0)
            + (if target.item_id = i ∧ fs = s then -target.qty else 0) := by
        simp [baseEffect, hty, hts, hfs]
      rw [hbe, hset]
      refine double_set_pointwise db.stock target.item_id fs ts target.qty now
        (fun a b => ledgerSum db.txns a b) (fun a b => ?_) i s
      have := hsum a b
      rwa [stockQty] at this
    · have hbe : baseEffect target i s
          = if target.item_id = i ∧ sl = s then target.qty else 0 := by
        simp [baseEffect, hty, hsl]
      rw [hbe, hset, get_setStockEntry]
      have hIHp := hsum target.item_id sl
      rw [stockQty] at hIHp
      by_cases h1 : i = target.item_id <;> by_cases h2 : s = sl <;>
        simp_all [eq_comm] <;> omega

theorem reaches_inv {db : Db} (h : Reaches db) : Inv db := by
  induction h with
  | init ops =>
    refine ⟨?_, ?_, ?_, ?_, ?_, ?_⟩
    · simp [IdsNodup]
    · intro r hr
      cases hr
    · intro r hr
      cases hr
    · intro r hr
      cases hr
    · intro e he
      cases he
    · intro item slot
      simp [stockQty, ledgerSum, get_stock_tx]
  | inbound hr hid hno h ih => exact inv_inbound ih hid h
  | outbound hr hid hno h ih => exact inv_outbound ih hid h
  | move hr hid hno h ih => exact inv_move ih hid h
  | count hr hid1 hid2 hid12 hno1 hno2 hno12 h ih => exact inv_count ih hid1 hid2 hid12 h
  | reversal hr hid hno h ih => exact inv_reversal ih hid h

/-! ### Forward characterizations of the operations -/

theorem get_txn_by_no_append_fresh {txns : List TxnRow} {row : TxnRow}
    (hf : FreshNo txns row.txn_no) :
    get_txn_by_no (txns ++ [row]) row.txn_no = some row := by
  induction txns with
  | nil => simp [get_txn_by_no]
  | cons a rest ih =>
    have ha : a.txn_no ≠ row.txn_no := hf a (List.mem_cons_self _ _)
    simp only [List.cons_append, get_txn_by_no, if_neg ha]
    exact ih fun r hr => hf r (List.mem_cons_of_mem a hr)

theorem single_set_pointwise (stock : List StockEntry) (tI sl : String) (d now : Int)
    (i s : String) :
    (get_stock_tx (setStockEntry stock tI sl ((get_stock_tx stock tI sl).getD 0 + d) now) i s).getD 0
      = (get_stock_tx stock i s).getD 0 + (if tI = i ∧ sl = s then d else 0) := by
  rw [get_setStockEntry]
  by_cases h1 : i = tI
  · rw [h1]
    by_cases h2 : s = sl
    · rw [h2]
      simp
    · rw [if_neg (show ¬(tI = tI ∧ s = sl) from fun hc => h2 hc.2),
        if_neg (show ¬(tI = tI ∧ sl = s) from fun hc => h2 hc.2.symm)]
      simp
  · rw [if_neg (show ¬(i = tI ∧ s = sl) from fun hc => h1 hc.1),
      if_neg (show ¬(tI = i ∧ sl = s) from fun hc => h1 hc.1.symm)]
    simp

theorem create_outbound_insufficient (db : Db) (item slot : String) (qty occ : Int)
    (actor : String) (note : Option String) (now : Int) (tid tno : String)
    (operator : OperatorRow) (hq : 0 < qty)
    (hop : require_active_operator_by_id db.operators actor = .ok operator)
    (hlt : (get_stock_tx db.stock item slot).getD 0 < qty) :
    create_outbound db item slot qty occ actor note now tid tno = .error .InsufficientStock := by
  simp only [create_outbound, hop, if_neg (show ¬qty ≤ 0 from by omega), if_pos hlt]

theorem create_outbound_success (db : Db) (item slot : String) (qty occ : Int)
    (actor : String) (note : Option String) (now : Int) (tid tno : String)
    (operator : OperatorRow) (hq : 0 < qty)
    (hop : require_active_operator_by_id db.operators actor = .ok operator)
    (hge : qty ≤ (get_stock_tx db.stock item slot).getD 0) :
    create_outbound db item slot qty occ actor note now tid tno
      = .ok (tno, { db with
          txns := db.txns ++ [outboundRow tid tno occ now operator.id item slot qty note],
          stock := setStockEntry db.stock item slot
            ((get_stock_tx db.stock item slot).getD 0 - qty) now }) := by
  simp only [create_outbound, hop, if_neg (show ¬qty ≤ 0 from by omega),
    if_neg (not_lt.mpr hge), insert_txn,
    upsert_stock_tx_ok _ _ _ _ (by omega : (0:Int) ≤ (get_stock_tx db.stock item slot).getD 0 - qty)]

theorem create_move_insufficient (db : Db) (item fromSlot toSlot : String) (qty occ : Int)
    (actor : String) (note : Option String) (now : Int) (tid tno : String)
    (operator : OperatorRow) (hq : 0 < qty) (hne : fromSlot ≠ toSlot)
    (hop : require_active_operator_by_id db.operators actor = .ok operator)
    (hlt : (get_stock_tx db.stock item fromSlot).getD 0 < qty) :
    create_move db item fromSlot toSlot qty occ actor note now tid tno
      = .error .InsufficientStock := by
  simp only [create_move, hop, if_neg (show ¬qty ≤ 0 from by omega), if_neg hne, if_pos hlt]

theorem create_move_success (db : Db) (item fromSlot toSlot : String) (qty occ : Int)
    (actor : String) (note : Option String) (now : Int) (tid tno : String)
    (operator : OperatorRow) (hq : 0 < qty) (hne : fromSlot ≠ toSlot)
    (hop : require_active_operator_by_id db.operators actor = .ok operator)
    (hnn : 0 ≤ (get_stock_tx db.stock item toSlot).getD 0)
    (hge : qty ≤ (get_stock_tx db.stock item fromSlot).getD 0) :
    create_move db item fromSlot toSlot qty occ actor note now tid tno
      = .ok (tno, { db with
          txns := db.txns ++ [moveRow tid tno occ now operator.id item fromSlot toSlot qty note],
          stock := setStockEntry
            (setStockEntry db.stock item fromSlot
              ((get_stock_tx db.stock item fromSlot).getD 0 - qty) now)
            item toSlot ((get_stock_tx db.stock item toSlot).getD 0 + qty) now }) := by
  have hgetto : get_stock_tx
      (setStockEntry db.stock item fromSlot ((get_stock_tx db.stock item fromSlot).getD 0 - qty) now)
      item toSlot = get_stock_tx db.stock item toSlot := by
    rw [get_setStockEntry, if_neg]
    intro ⟨_, hc⟩
    exact hne hc.symm
  simp only [create_move, hop, if_neg (show ¬qty ≤ 0 from by omega), if_neg hne,
    if_neg (not_lt.mpr hge), insert_txn,
    upsert_stock_tx_ok _ _ _ _ (by omega : (0:Int) ≤ (get_stock_tx db.stock item fromSlot).getD 0 - qty),
    hgetto,
    upsert_stock_tx_ok _ _ _ _ (by omega : (0:Int) ≤ (get_stock_tx db.stock item toSlot).getD 0 + qty)]

theorem create_count_success (db : Db) (item slot : String) (actual occ : Int)
    (actor : String) (note : Option String) (now : Int) (cid aid cno ano : String)
    (operator : OperatorRow) (hq : 0 ≤ actual)
    (hop : require_active_operator_by_id db.operators actor = .ok operator) :
    create_count db item slot actual occ actor note now cid aid cno ano
      = .ok (cno, { db with
          txns := db.txns
            ++ [countRow cid cno occ now operator.id item slot actual note,
                adjustRow aid ano occ now operator.id item slot
                  (actual - (get_stock_tx db.stock item slot).getD 0) note],
          stock := setStockEntry db.stock item slot actual now }) := by
  simp only [create_count, hop, if_neg (not_lt.mpr hq), insert_txn,
    upsert_stock_tx_ok _ _ _ _ hq, List.append_assoc, List.cons_append, List.nil_append]

theorem reverse_txn_not_found (db : Db) (txnNo : String) (occ : Int) (actor : String)
    (note : Option String) (now : Int) (rid rno : String) (operator : OperatorRow)
    (hop : require_active_operator_by_id db.operators actor = .ok operator)
    (htgt : get_txn_by_no db.txns txnNo = none) :
    reverse_txn db txnNo occ actor note now rid rno = .error .NotFound := by
  simp only [reverse_txn, hop, htgt]

theorem reverse_txn_bad_kind (db : Db) (txnNo : String) (occ : Int) (actor : String)
    (note : Option String) (now : Int) (rid rno : String) (operator : OperatorRow)
    (target : TxnRow)
    (hop : require_active_operator_by_id db.operators actor = .ok operator)
    (htgt : get_txn_by_no db.txns txnNo = some target)
    (hkind : target.txn_type = "REVERSAL" ∨ target.txn_type = "COUNT") :
    reverse_txn db txnNo occ actor note now rid rno = .error .ValidationError := by
  simp only [reverse_txn, hop, htgt, if_pos hkind]

theorem reverse_txn_conflict (db : Db) (txnNo : String) (occ : Int) (actor : String)
    (note : Option String) (now : Int) (rid rno : String) (operator : OperatorRow)
    (target : TxnRow)
    (hop : require_active_operator_by_id db.operators actor = .ok operator)
    (htgt : get_txn_by_no db.txns txnNo = some target)
    (hkind : ¬(target.txn_type = "REVERSAL" ∨ target.txn_type = "COUNT"))
    (hrev : has_reversal db.txns target.id) :
    reverse_txn db txnNo occ actor note now rid rno = .error .Conflict := by
  simp only [reverse_txn, hop, htgt, if_neg hkind, if_pos hrev]

theorem stockQty_nonneg {db : Db} (hnn : StockNonNeg db.stock) (i s : String) :
    0 ≤ stockQty db i s :=
  get_stock_tx_nonneg hnn i s

theorem reverse_txn_effect {db db' : Db} {txnNo actor no : String} {occ now : Int}
    {note : Option String} {rid rno : String} {target : TxnRow}
    (htgt : get_txn_by_no db.txns txnNo = some target)
    (h : reverse_txn db txnNo occ actor note now rid rno = .ok (no, db')) :
    ∀ i s, stockQty db' i s = stockQty db i s - baseEffect target i s := by
  obtain ⟨operator, target', hop, htgt', hkind, hrv, hno', hops, htx, heff⟩ := reverse_txn_inv h
  rw [htgt] at htgt'
  injection htgt' with hT
  subst hT
  intro i s
  rcases reverseStockEffect_inv heff with
    ⟨hty, ts, hts, hb, hset⟩ | ⟨hty, fs, hfs, hb, hset⟩ |
    ⟨hty, fs, ts, hfs, hts, hb1, hb2, hset⟩ | ⟨hty, sl, hsl, hb, hset⟩
  · have hbe : baseEffect target i s
        = if target.item_id = i ∧ ts = s then target.qty else 0 := by
      simp [baseEffect, hty, hts]
    rw [stockQty, stockQty, hset, sub_eq_add_neg, single_set_pointwise, hbe]
    by_cases hc : target.item_id = i ∧ ts = s
    · rw [if_pos hc, if_pos hc]
      omega
    · rw [if_neg hc, if_neg hc]
      omega
  · have hbe : baseEffect target i s
        = if target.item_id = i ∧ fs = s then -target.qty else 0 := by
      simp [baseEffect, hty, hfs]
    rw [stockQty, stockQty, hset, single_set_pointwise, hbe]
    by_cases hc : target.item_id = i ∧ fs = s
    · rw [if_pos hc, if_pos hc]
      omega
    · rw [if_neg hc, if_neg hc]
      omega
  · have hbe : baseEffect target i s
        = (if target.item_id = i ∧ ts = s then target.qty else 0)
          + (if target.item_id = i ∧ fs = s then -target.qty else 0) := by
      simp [baseEffect, hty, hts, hfs]
    rw [stockQty, stockQty, hset, hbe]
    have := double_set_pointwise db.stock target.item_id fs ts target.qty now
      (fun a b => (get_stock_tx db.stock a b).getD 0) (fun a b => rfl) i s
    rw [this]
    omega
  · have hbe : baseEffect target i s
        = if target.item_id = i ∧ sl = s then target.qty else 0 := by
      simp [baseEffect, hty, hsl]
    rw [stockQty, stockQty, hset, sub_eq_add_neg, single_set_pointwise, hbe]
    by_cases hc : target.item_id = i ∧ sl = s
    · rw [if_pos hc, if_pos hc]
      omega
    · rw [if_neg hc, if_neg hc]
      omega

theorem reverse_txn_insufficient {db : Db} {txnNo actor : String} {occ now : Int}
    {note : Option String} {rid rno : String} {target : TxnRow} {operator : OperatorRow}
    (hop : require_active_operator_by_id db.operators actor = .ok operator)
    (htgt : get_txn_by_no db.txns txnNo = some target)
    (hkind : ¬(target.txn_type = "REVERSAL" ∨ target.txn_type = "COUNT"))
    (hrv : ¬has_reversal db.txns target.id)
    (hnn : StockNonNeg db.stock)
    (hq : target.txn_type = "OUT" ∨ target.txn_type = "MOVE" → 0 ≤ target.qty)
    (hmv : target.txn_type = "MOVE" → ∃ fs, target.from_slot_id = some fs)
    (hneg : ∃ i s, stockQty db i s - baseEffect target i s < 0) :
    reverse_txn db txnNo occ actor note now rid rno = .error .InsufficientStock := by
  obtain ⟨i, s, hneg⟩ := hneg
  have his := stockQty_nonneg hnn i s
  simp only [stockQty] at hneg his
  suffices hfail : reverseStockEffect db.stock target now = .error .InsufficientStock by
    simp only [reverse_txn, hop, htgt, if_neg hkind, if_neg hrv, hfail]
  by_cases hIN : target.txn_type = "IN"
  · rw [show baseEffect target i s
        = if target.item_id = i ∧ target.to_slot_id = some s then target.qty else 0 from by
      simp [baseEffect, hIN]] at hneg
    by_cases hc : target.item_id = i ∧ target.to_slot_id = some s
    · obtain ⟨hci, hcs⟩ := hc
      rw [if_pos ⟨hci, hcs⟩] at hneg
      simp only [reverseStockEffect, if_pos hIN, hcs]
      apply apply_stock_delta_err
      rw [hci]
      omega
    · rw [if_neg hc] at hneg
      omega
  · by_cases hOUT : target.txn_type = "OUT"
    · exfalso
      have hq' := hq (Or.inl hOUT)
      rw [show baseEffect target i s
          = if target.item_id = i ∧ target.from_slot_id = some s then -target.qty else 0 from by
        simp [baseEffect, hOUT, hIN]] at hneg
      by_cases hc : target.item_id = i ∧ target.from_slot_id = some s
      · rw [if_pos hc] at hneg
        omega
      · rw [if_neg hc] at hneg
        omega
    · by_cases hMOVE : target.txn_type = "MOVE"
      · have hq' := hq (Or.inr hMOVE)
        obtain ⟨fs, hfs⟩ := hmv hMOVE
        rw [show baseEffect target i s
            = (if target.item_id = i ∧ target.to_slot_id = some s then target.qty else 0)
              + (if target.item_id = i ∧ target.from_slot_id = some s then -target.qty else 0)
            from by simp [baseEffect, hMOVE, hIN, hOUT]] at hneg
        by_cases hc2 : target.item_id = i ∧ target.from_slot_id = some s
        · exfalso
          rw [if_pos hc2] at hneg
          by_cases hc1 : target.item_id = i ∧ target.to_slot_id = some s
          · rw [if_pos hc1] at hneg
            omega
          · rw [if_neg hc1] at hneg
            omega
        · rw [if_neg hc2] at hneg
          by_cases hc1 : target.item_id = i ∧ target.to_slot_id = some s
          · obtain ⟨hci, hcs⟩ := hc1
            rw [if_pos ⟨hci, hcs⟩] at hneg
            -- the from-slot is distinct from s, so the to-slot read sees the old value
            have hfss : fs ≠ s := by
              intro hh
              subst hh
              exact hc2 ⟨hci, hfs⟩
            simp only [reverseStockEffect, if_neg hIN, if_neg hOUT, if_pos hMOVE, hfs, hcs]
            have hffnn := get_stock_tx_nonneg hnn target.item_id fs
            rw [apply_stock_delta_ok _ _ _ _ _ (by omega)]
            apply apply_stock_delta_err
            rw [get_setStockEntry, if_neg (show ¬(target.item_id = target.item_id ∧ s = fs)
              from fun hcc => hfss hcc.2.symm)]
            rw [hci]
            omega
          · exfalso
            rw [if_neg hc1] at hneg
            omega
      · by_cases hADJ : target.txn_type = "ADJUST"
        · rw [show baseEffect target i s
              = if target.item_id = i ∧ target.from_slot_id = some s then target.qty else 0
              from by simp [baseEffect, hADJ, hIN, hOUT, hMOVE]] at hneg
          by_cases hc : target.item_id = i ∧ target.from_slot_id = some s
          · obtain ⟨hci, hcs⟩ := hc
            rw [if_pos ⟨hci, hcs⟩] at hneg
            simp only [reverseStockEffect, if_neg hIN, if_neg hOUT, if_neg hMOVE, if_pos hADJ, hcs]
            apply apply_stock_delta_err
            rw [hci]
            omega
          · rw [if_neg hc] at hneg
            omega
        · exfalso
          rw [show baseEffect target i s = 0 from by
            simp [baseEffect, hIN, hOUT, hMOVE, hADJ]] at hneg
          omega

/-! ### The claims -/

/-- C1: in every database reachable from an empty store by committed ledger
operations, for every (item, slot) pair the stored stock quantity (an absent
entry counting as 0) equals the signed sum of the effects of all committed
movement rows referencing that pair: IN and the to-slot half of MOVE contribute
`+qty`, OUT and the from-slot half of MOVE contribute `-qty`, a COUNT row
contributes 0 (its paired ADJUST row carries the delta as its `qty`), and a
REVERSAL contributes the inverse of the effect of the row its `ref_txn_id`
references. -/
theorem stock_matches_signed_ledger_sum {db : Db} (h : Reaches db) (item slot : String) :
    stockQty db item slot = ledgerSum db.txns item slot :=
  (reaches_inv h).2.2.2.2.2 item slot

theorem stock_matches_signed_ledger_sum_witness :
    stockQty dbFive "itemA" "slotA" = ledgerSum dbFive.txns "itemA" "slotA" :=
  stock_matches_signed_ledger_sum
    (@Reaches.inbound dbEmpty dbFive "itemA" "slotA" "op1" 5 0 7 none "id1" "T1" "T1"
      (Reaches.init [opBob]) (by decide) (by decide) rfl)
    "itemA" "slotA"

/-- C2: each committed ledger operation maps a database whose stock levels are
all non-negative to one whose stock levels are all non-negative (an error
outcome aborts the transaction, so the unchanged pre-state trivially remains
non-negative), and the store-level write `upsert_stock_tx` rejects a negative
quantity with a validation error as a second line of defense. -/
theorem ledger_ops_preserve_stock_nonneg :
    (∀ db db' item slot actor no, ∀ qty occ now : Int, ∀ note : Option String, ∀ tid tno,
      StockNonNeg db.stock →
      create_inbound db item slot qty occ actor note now tid tno = .ok (no, db') →
      StockNonNeg db'.stock) ∧
    (∀ db db' item slot actor no, ∀ qty occ now : Int, ∀ note : Option String, ∀ tid tno,
      StockNonNeg db.stock →
      create_outbound db item slot qty occ actor note now tid tno = .ok (no, db') →
      StockNonNeg db'.stock) ∧
    (∀ db db' item fromSlot toSlot actor no, ∀ qty occ now : Int, ∀ note : Option String,
      ∀ tid tno,
      StockNonNeg db.stock →
      create_move db item fromSlot toSlot qty occ actor note now tid tno = .ok (no, db') →
      StockNonNeg db'.stock) ∧
    (∀ db db' item slot actor no, ∀ actual occ now : Int, ∀ note : Option String,
      ∀ cid aid cno ano,
      StockNonNeg db.stock →
      create_count db item slot actual occ actor note now cid aid cno ano = .ok (no, db') →
      StockNonNeg db'.stock) ∧
    (∀ db db' txnNo actor no, ∀ occ now : Int, ∀ note : Option String, ∀ rid rno,
      StockNonNeg db.stock →
      reverse_txn db txnNo occ actor note now rid rno = .ok (no, db') →
      StockNonNeg db'.stock) ∧
    (∀ stock item slot, ∀ qty t : Int, qty < 0 →
      upsert_stock_tx stock item slot qty t = .error .ValidationError) := by
  refine ⟨?_, ?_, ?_, ?_, ?_, ?_⟩
  · intro db db' item slot actor no qty occ now note tid tno hnn h
    obtain ⟨operator, hop, hq, hno', hb, hops, htx, hst⟩ := create_inbound_inv h
    rw [hst]
    exact setStockEntry_nonneg hnn hb item slot now
  · intro db db' item slot actor no qty occ now note tid tno hnn h
    obtain ⟨operator, hop, hq, hno', hb, hops, htx, hst⟩ := create_outbound_inv h
    rw [hst]
    exact setStockEntry_nonneg hnn (by omega) item slot now
  · intro db db' item fromSlot toSlot actor no qty occ now note tid tno hnn h
    obtain ⟨operator, hop, hq, hft, hno', hb1, hb2, hops, htx, hst⟩ := create_move_inv h
    rw [hst]
    exact setStockEntry_nonneg
      (setStockEntry_nonneg hnn (by omega) item fromSlot now) hb2 item toSlot now
  · intro db db' item slot actor no actual occ now note cid aid cno ano hnn h
    obtain ⟨operator, hop, hq, hno', hops, htx, hst⟩ := create_count_inv h
    rw [hst]
    exact setStockEntry_nonneg hnn hq item slot now
  · intro db db' txnNo actor no occ now note rid rno hnn h
    obtain ⟨operator, target, hop, htgt, hkind, hrv, hno', hops, htx, heff⟩ := reverse_txn_inv h
    exact reverseStockEffect_nonneg hnn heff
  · intro stock item slot qty t hq
    exact upsert_stock_tx_neg stock item slot t hq

theorem ledger_ops_preserve_stock_nonneg_witness :
    StockNonNeg dbFive.stock ∧
    upsert_stock_tx [] "itemA" "slotA" (-1) 0 = .error .ValidationError :=
  ⟨ledger_ops_preserve_stock_nonneg.1 dbEmpty dbFive "itemA" "slotA" "op1" "T1" 5 0 7 none
      "id1" "T1" (by decide) rfl,
   ledger_ops_preserve_stock_nonneg.2.2.2.2.2 [] "itemA" "slotA" (-1) 0 (by decide)⟩

/-- C7 counterexample: committing a Count of actual quantity 0 over a prior
quantity of 5 stores an ADJUST row whose `qty` is −5, so the stored `qty` of a
committed movement record is not always ≥ 0. -/
theorem count_stores_negative_adjust_qty :
    (create_count dbFive "itemA" "slotA" 0 1 "op1" none 8 "c1" "a1" "TC" "TA").toOption.map
      (fun p => p.2.txns.map TxnRow.qty) = some [5, 0, -5] := by
  decide

/-- C7 (amended): in every reachable database, every committed row of kind IN,
OUT, MOVE or COUNT has `qty ≥ 0`; the ADJUST row paired with a Count instead
stores the signed delta `actual − prior`, which may be negative, and a REVERSAL
row copies its target's `qty`. -/
theorem qty_nonneg_on_direct_kinds {db : Db} (h : Reaches db) :
    ∀ r ∈ db.txns,
      (r.txn_type = "IN" ∨ r.txn_type = "OUT" ∨ r.txn_type = "MOVE" ∨ r.txn_type = "COUNT") →
      0 ≤ r.qty :=
  (reaches_inv h).2.2.2.1

theorem qty_nonneg_on_direct_kinds_witness :
    0 ≤ (inboundRow "id1" "T1" 0 7 "op1" "itemA" "slotA" 5 none).qty :=
  qty_nonneg_on_direct_kinds
    (@Reaches.inbound dbEmpty dbFive "itemA" "slotA" "op1" 5 0 7 none "id1" "T1" "T1"
      (Reaches.init [opBob]) (by decide) (by decide) rfl)
    (inboundRow "id1" "T1" 0 7 "op1" "itemA" "slotA" 5 none) (by decide) (by decide)

/-- C8 counterexample: the ADJUST row committed by a Count carries no
`ref_txn_id` at all (the source sets it to `None`), so it does not point to the
paired COUNT movement as claimed. -/
theorem count_adjust_ref_is_none :
    (create_count dbFive "itemA" "slotA" 0 1 "op1" none 8 "c1" "a1" "TC" "TA").toOption.map
      (fun p => p.2.txns.map TxnRow.ref_txn_id) = some [none, none, none] := by
  decide

/-- C8 (amended): in every reachable database, `ref_txn_id` is set exactly on
REVERSAL rows, where it points to the `id` of the committed movement it
reverses (a row of a reversible kind, neither REVERSAL nor COUNT); every other
row — including the ADJUST row produced by a Count — has no `ref_txn_id`. -/
theorem ref_id_only_on_reversal {db : Db} (h : Reaches db) :
    ∀ r ∈ db.txns,
      (r.txn_type ≠ "REVERSAL" → r.ref_txn_id = none) ∧
      (r.txn_type = "REVERSAL" → ∃ t ∈ db.txns, r.ref_txn_id = some t.id ∧
        ¬(t.txn_type = "REVERSAL" ∨ t.txn_type = "COUNT")) :=
  fun r hr =>
    ⟨fun hne => (reaches_inv h).2.2.1 r hr hne, fun hrev => (reaches_inv h).2.1 r hr hrev⟩

theorem ref_id_only_on_reversal_witness :
    (inboundRow "id1" "T1" 0 7 "op1" "itemA" "slotA" 5 none).ref_txn_id = none :=
  (ref_id_only_on_reversal
    (@Reaches.inbound dbEmpty dbFive "itemA" "slotA" "op1" 5 0 7 none "id1" "T1" "T1"
      (Reaches.init [opBob]) (by decide) (by decide) rfl)
    (inboundRow "id1" "T1" 0 7 "op1" "itemA" "slotA" 5 none) (by decide)).1 (by decide)

/-- C4: for an Outbound or Move request with `qty > 0` and an active operator,
if the requested quantity exceeds the current source-slot quantity (an absent
entry counting as 0) the operation returns `InsufficientStock` — the
transaction aborts, so stock and ledger are unchanged — and otherwise Outbound
subtracts `qty` from the source slot and appends exactly one OUT row, while
Move subtracts `qty` from the source slot, adds it to the target slot (whose
prior quantity is non-negative, as in every reachable store) and appends
exactly one MOVE row with both slots populated. -/
theorem outbound_move_insufficient_guard :
    (∀ db item slot, ∀ qty occ : Int, ∀ actor, ∀ note : Option String, ∀ now : Int,
      ∀ tid tno operator, 0 < qty →
      require_active_operator_by_id db.operators actor = .ok operator →
      (get_stock_tx db.stock item slot).getD 0 < qty →
      create_outbound db item slot qty occ actor note now tid tno
        = .error .InsufficientStock) ∧
    (∀ db item slot, ∀ qty occ : Int, ∀ actor, ∀ note : Option String, ∀ now : Int,
      ∀ tid tno operator, 0 < qty →
      require_active_operator_by_id db.operators actor = .ok operator →
      qty ≤ (get_stock_tx db.stock item slot).getD 0 →
      create_outbound db item slot qty occ actor note now tid tno
        = .ok (tno, { db with
            txns := db.txns ++ [outboundRow tid tno occ now operator.id item slot qty note],
            stock := setStockEntry db.stock item slot
              ((get_stock_tx db.stock item slot).getD 0 - qty) now })) ∧
    (∀ db item fromSlot toSlot, ∀ qty occ : Int, ∀ actor, ∀ note : Option String, ∀ now : Int,
      ∀ tid tno operator, 0 < qty → fromSlot ≠ toSlot →
      require_active_operator_by_id db.operators actor = .ok operator →
      (get_stock_tx db.stock item fromSlot).getD 0 < qty →
      create_move db item fromSlot toSlot qty occ actor note now tid tno
        = .error .InsufficientStock) ∧
    (∀ db item fromSlot toSlot, ∀ qty occ : Int, ∀ actor, ∀ note : Option String, ∀ now : Int,
      ∀ tid tno operator, 0 < qty → fromSlot ≠ toSlot →
      require_active_operator_by_id db.operators actor = .ok operator →
      0 ≤ (get_stock_tx db.stock item toSlot).getD 0 →
      qty ≤ (get_stock_tx db.stock item fromSlot).getD 0 →
      create_move db item fromSlot toSlot qty occ actor note now tid tno
        = .ok (tno, { db with
            txns := db.txns ++ [moveRow tid tno occ now operator.id item fromSlot toSlot qty note],
            stock := setStockEntry
              (setStockEntry db.stock item fromSlot
                ((get_stock_tx db.stock item fromSlot).getD 0 - qty) now)
              item toSlot ((get_stock_tx db.stock item toSlot).getD 0 + qty) now })) := by
  refine ⟨?_, ?_, ?_, ?_⟩
  · intro db item slot qty occ actor note now tid tno operator hq hop hlt
    exact create_outbound_insufficient db item slot qty occ actor note now tid tno operator
      hq hop hlt
  · intro db item slot qty occ actor note now tid tno operator hq hop hge
    exact create_outbound_success db item slot qty occ actor note now tid tno operator
      hq hop hge
  · intro db item fromSlot toSlot qty occ actor note now tid tno operator hq hne hop hlt
    exact create_move_insufficient db item fromSlot toSlot qty occ actor note now tid tno
      operator hq hne hop hlt
  · intro db item fromSlot toSlot qty occ actor note now tid tno operator hq hne hop hnn hge
    exact create_move_success db item fromSlot toSlot qty occ actor note now tid tno
      operator hq hne hop hnn hge

theorem outbound_move_insufficient_guard_witness :
    create_outbound dbFive "itemA" "slotA" 6 1 "op1" none 8 "id2" "T2"
      = .error .InsufficientStock ∧
    create_outbound dbFive "itemA" "slotA" 5 0 "op1" none 8 "id2" "T2" = .ok ("T2", dbDrained) := by
  constructor
  · exact outbound_move_insufficient_guard.1 dbFive "itemA" "slotA" 6 1 "op1" none 8
      "id2" "T2" opBob (by decide) rfl (by decide)
  · have h := outbound_move_insufficient_guard.2.1 dbFive "itemA" "slotA" 5 0 "op1" none 8
      "id2" "T2" opBob (by decide) rfl (by decide)
    rw [h]
    rfl

/-- C5: a Count with `actualQty ≥ 0` and an active operator always succeeds,
whatever the prior quantity (absent = 0): it appends exactly two ledger rows —
a COUNT row with `qty = 0` and `actual_qty = actualQty`, and an ADJUST row with
`qty = actualQty − prior` — sets the stock level of the pair to exactly
`actualQty`, and returns the COUNT row's movement number, all in one
transaction. -/
theorem count_sets_stock_appends_two_rows :
    ∀ db item slot, ∀ actual occ : Int, ∀ actor, ∀ note : Option String, ∀ now : Int,
      ∀ cid aid cno ano operator, 0 ≤ actual →
      require_active_operator_by_id db.operators actor = .ok operator →
      create_count db item slot actual occ actor note now cid aid cno ano
        = .ok (cno, { db with
            txns := db.txns
              ++ [countRow cid cno occ now operator.id item slot actual note,
                  adjustRow aid ano occ now operator.id item slot
                    (actual - (get_stock_tx db.stock item slot).getD 0) note],
            stock := setStockEntry db.stock item slot actual now }) := by
  intro db item slot actual occ actor note now cid aid cno ano operator hq hop
  exact create_count_success db item slot actual occ actor note now cid aid cno ano
    operator hq hop

theorem count_sets_stock_appends_two_rows_witness :
    create_count dbFive "itemA" "slotA" 10 2 "op1" none 9 "c1" "a1" "TC" "TA"
      = .ok ("TC", dbCounted) := by
  have h := count_sets_stock_appends_two_rows dbFive "itemA" "slotA" 10 2 "op1" none 9
    "c1" "a1" "TC" "TA" opBob (by decide) rfl
  rw [h]
  rfl

/-- C6: with an active operator, a reversal whose target movement number does
not resolve fails with `NotFound`; a target of kind REVERSAL or COUNT is
rejected with a validation error before any mutation; a target that already has
a REVERSAL row referencing it fails with `Conflict`; and in particular, after
one successful reversal of a movement, reversing the same movement number again
always fails with `Conflict` (the error aborts before any write, so nothing
changes). -/
theorem reversal_preconditions :
    (∀ db txnNo, ∀ occ : Int, ∀ actor, ∀ note : Option String, ∀ now : Int, ∀ rid rno operator,
      require_active_operator_by_id db.operators actor = .ok operator →
      get_txn_by_no db.txns txnNo = none →
      reverse_txn db txnNo occ actor note now rid rno = .error .NotFound) ∧
    (∀ db txnNo, ∀ occ : Int, ∀ actor, ∀ note : Option String, ∀ now : Int,
      ∀ rid rno operator target,
      require_active_operator_by_id db.operators actor = .ok operator →
      get_txn_by_no db.txns txnNo = some target →
      (target.txn_type = "REVERSAL" ∨ target.txn_type = "COUNT") →
      reverse_txn db txnNo occ actor note now rid rno = .error .ValidationError) ∧
    (∀ db txnNo, ∀ occ : Int, ∀ actor, ∀ note : Option String, ∀ now : Int,
      ∀ rid rno operator target,
      require_active_operator_by_id db.operators actor = .ok operator →
      get_txn_by_no db.txns txnNo = some target →
      ¬(target.txn_type = "REVERSAL" ∨ target.txn_type = "COUNT") →
      has_reversal db.txns target.id →
      reverse_txn db txnNo occ actor note now rid rno = .error .Conflict) ∧
    (∀ db db' txnNo no, ∀ occ : Int, ∀ actor, ∀ note : Option String, ∀ now : Int, ∀ rid rno,
      ∀ occ2 : Int, ∀ actor2, ∀ note2 : Option String, ∀ now2 : Int, ∀ rid2 rno2 operator2,
      reverse_txn db txnNo occ actor note now rid rno = .ok (no, db') →
      require_active_operator_by_id db.operators actor2 = .ok operator2 →
      reverse_txn db' txnNo occ2 actor2 note2 now2 rid2 rno2 = .error .Conflict) := by
  refine ⟨?_, ?_, ?_, ?_⟩
  · intro db txnNo occ actor note now rid rno operator hop htgt
    exact reverse_txn_not_found db txnNo occ actor note now rid rno operator hop htgt
  · intro db txnNo occ actor note now rid rno operator target hop htgt hkind
    exact reverse_txn_bad_kind db txnNo occ actor note now rid rno operator target
      hop htgt hkind
  · intro db txnNo occ actor note now rid rno operator target hop htgt hkind hrev
    exact reverse_txn_conflict db txnNo occ actor note now rid rno operator target
      hop htgt hkind hrev
  · intro db db' txnNo no occ actor note now rid rno occ2 actor2 note2 now2 rid2 rno2
      operator2 h hop2
    obtain ⟨operator, target, hop, htgt, hkind, hrv, hno', hops, htx, heff⟩ := reverse_txn_inv h
    have htgt' : get_txn_by_no db'.txns txnNo = some target := by
      rw [htx]
      exact get_txn_by_no_append_left _ htgt
    have hop2' : require_active_operator_by_id db'.operators actor2 = .ok operator2 := by
      rw [hops]
      exact hop2
    have hrev' : has_reversal db'.txns target.id := by
      rw [htx]
      exact ⟨reversalRow rid rno occ now operator.id target note,
        List.mem_append_right _ (List.mem_singleton.mpr rfl), rfl, rfl⟩
    exact reverse_txn_conflict db' txnNo occ2 actor2 note2 now2 rid2 rno2 operator2 target
      hop2' htgt' hkind hrev'

theorem reversal_preconditions_witness :
    reverse_txn dbEmpty "missing" 0 "op1" none 0 "r0" "TR0" = .error .NotFound ∧
    reverse_txn dbRev1 "T1" 4 "op1" none 11 "r2" "TR2" = .error .Conflict := by
  constructor
  · exact reversal_preconditions.1 dbEmpty "missing" 0 "op1" none 0 "r0" "TR0" opBob rfl rfl
  · exact reversal_preconditions.2.2.2 dbFive dbRev1 "T1" "TR1" 3 "op1" none 10 "r1" "TR1"
      4 "op1" none 11 "r2" "TR2" opBob rfl rfl

/-- C3: on a successful reversal the stock effect is exactly the inverse of the
target's effect — pointwise, every pair's new quantity equals its old quantity
minus the target's base effect on that pair (IN: `-qty` on its to-slot; OUT:
`+qty` on its from-slot; MOVE: `+qty` on from-slot and `-qty` on to-slot;
ADJUST: `-qty` on its slot) — so if no other movement has touched the affected
pairs since the target, stock returns to its value before the target.  And
whenever applying this inverse would drive some stock level negative (in a
store with non-negative levels and a well-formed target row), the operation
returns `InsufficientStock`; the error aborts the transaction, so neither stock
nor ledger changes (no partial application). -/
theorem reversal_inverse_effect_and_guard :
    (∀ db db' txnNo no, ∀ occ : Int, ∀ actor, ∀ note : Option String, ∀ now : Int,
      ∀ rid rno target,
      get_txn_by_no db.txns txnNo = some target →
      reverse_txn db txnNo occ actor note now rid rno = .ok (no, db') →
      ∀ i s, stockQty db' i s = stockQty db i s - baseEffect target i s) ∧
    (∀ db txnNo, ∀ occ : Int, ∀ actor, ∀ note : Option String, ∀ now : Int,
      ∀ rid rno operator target,
      require_active_operator_by_id db.operators actor = .ok operator →
      get_txn_by_no db.txns txnNo = some target →
      ¬(target.txn_type = "REVERSAL" ∨ target.txn_type = "COUNT") →
      ¬has_reversal db.txns target.id →
      StockNonNeg db.stock →
      (target.txn_type = "OUT" ∨ target.txn_type = "MOVE" → 0 ≤ target.qty) →
      (target.txn_type = "MOVE" → ∃ fs, target.from_slot_id = some fs) →
      (∃ i s, stockQty db i s - baseEffect target i s < 0) →
      reverse_txn db txnNo occ actor note now rid rno = .error .InsufficientStock) := by
  constructor
  · intro db db' txnNo no occ actor note now rid rno target htgt h i s
    exact reverse_txn_effect htgt h i s
  · intro db txnNo occ actor note now rid rno operator target hop htgt hkind hrv hnn hq hmv hneg
    exact reverse_txn_insufficient hop htgt hkind hrv hnn hq hmv hneg

theorem reversal_inverse_effect_and_guard_witness :
    stockQty dbRev1 "itemA" "slotA"
      = stockQty dbFive "itemA" "slotA"
        - baseEffect (inboundRow "id1" "T1" 0 7 "op1" "itemA" "slotA" 5 none) "itemA" "slotA" ∧
    reverse_txn dbDrained "T1" 9 "op1" none 9 "id9" "T9" = .error .InsufficientStock :=
  ⟨reversal_inverse_effect_and_guard.1 dbFive dbRev1 "T1" "TR1" 3 "op1" none 10 "r1" "TR1"
      (inboundRow "id1" "T1" 0 7 "op1" "itemA" "slotA" 5 none) rfl rfl "itemA" "slotA",
   reversal_inverse_effect_and_guard.2 dbDrained "T1" 9 "op1" none 9 "id9" "T9" opBob
      (inboundRow "id1" "T1" 0 7 "op1" "itemA" "slotA" 5 none) rfl rfl (by decide) (by decide)
      (by decide) (by decide) (fun hM => absurd hM (by decide))
      ⟨"itemA", "slotA", by decide⟩⟩

/-- C9 counterexample: a successful Count returns the COUNT row's movement
number, and submitting that returned number to the reversal operation is
rejected as a non-reversible kind (validation error) — so it is not true that
the returned number of every successful operation can be targeted for
reversal. -/
theorem count_returned_no_rejected_by_reversal :
    (create_count dbFive "itemA" "slotA" 10 2 "op1" none 9 "c1" "a1" "TC" "TA").toOption.map
      (fun p => reverse_txn p.2 p.1 3 "op1" none 10 "r1" "TR")
      = some (.error .ValidationError) := rfl

/-- C9 (amended): every operation, on success, returns the movement number of a
row it inserted — for Inbound, Outbound and Move the returned number resolves
to the single inserted row, whose kind (IN/OUT/MOVE) is not in the
kind-rejection set of the reversal operation; a Count returns the number of its
COUNT row, which the reversal operation rejects with a validation error (the
paired ADJUST row must be targeted instead); and a Reversal returns the number
of its inserted REVERSAL row.  (Generated movement numbers are fresh, which the
freshness hypotheses make explicit.) -/
theorem returned_no_resolves_to_inserted_row :
    (∀ db db' item slot actor no, ∀ qty occ now : Int, ∀ note : Option String, ∀ tid tno,
      FreshNo db.txns tno →
      create_inbound db item slot qty occ actor note now tid tno = .ok (no, db') →
      ∃ r, get_txn_by_no db'.txns no = some r ∧ r.txn_type = "IN"
        ∧ ¬(r.txn_type = "REVERSAL" ∨ r.txn_type = "COUNT")) ∧
    (∀ db db' item slot actor no, ∀ qty occ now : Int, ∀ note : Option String, ∀ tid tno,
      FreshNo db.txns tno →
      create_outbound db item slot qty occ actor note now tid tno = .ok (no, db') →
      ∃ r, get_txn_by_no db'.txns no = some r ∧ r.txn_type = "OUT"
        ∧ ¬(r.txn_type = "REVERSAL" ∨ r.txn_type = "COUNT")) ∧
    (∀ db db' item fromSlot toSlot actor no, ∀ qty occ now : Int, ∀ note : Option String,
      ∀ tid tno, FreshNo db.txns tno →
      create_move db item fromSlot toSlot qty occ actor note now tid tno = .ok (no, db') →
      ∃ r, get_txn_by_no db'.txns no = some r ∧ r.txn_type = "MOVE"
        ∧ ¬(r.txn_type = "REVERSAL" ∨ r.txn_type = "COUNT")) ∧
    (∀ db db' item slot actor no, ∀ actual occ now : Int, ∀ note : Option String,
      ∀ cid aid cno ano, FreshNo db.txns cno →
      create_count db item slot actual occ actor note now cid aid cno ano = .ok (no, db') →
      (∃ r, get_txn_by_no db'.txns no = some r ∧ r.txn_type = "COUNT") ∧
      (∀ occ2 : Int, ∀ actor2, ∀ note2 : Option String, ∀ now2 : Int, ∀ rid rno operator2,
        require_active_operator_by_id db'.operators actor2 = .ok operator2 →
        reverse_txn db' no occ2 actor2 note2 now2 rid rno = .error .ValidationError)) ∧
    (∀ db db' txnNo actor no, ∀ occ now : Int, ∀ note : Option String, ∀ rid rno,
      FreshNo db.txns rno →
      reverse_txn db txnNo occ actor note now rid rno = .ok (no, db') →
      ∃ r, get_txn_by_no db'.txns no = some r ∧ r.txn_type = "REVERSAL") := by
  refine ⟨?_, ?_, ?_, ?_, ?_⟩
  · intro db db' item slot actor no qty occ now note tid tno hf h
    obtain ⟨operator, hop, hq, hno', hb, hops, htx, hst⟩ := create_inbound_inv h
    subst hno'
    exact ⟨inboundRow tid no occ now operator.id item slot qty note,
      by rw [htx]; exact get_txn_by_no_append_fresh hf, rfl, by simp [inboundRow]⟩
  · intro db db' item slot actor no qty occ now note tid tno hf h
    obtain ⟨operator, hop, hq, hno', hb, hops, htx, hst⟩ := create_outbound_inv h
    subst hno'
    exact ⟨outboundRow tid no occ now operator.id item slot qty note,
      by rw [htx]; exact get_txn_by_no_append_fresh hf, rfl, by simp [outboundRow]⟩
  · intro db db' item fromSlot toSlot actor no qty occ now note tid tno hf h
    obtain ⟨operator, hop, hq, hft, hno', hb1, hb2, hops, htx, hst⟩ := create_move_inv h
    subst hno'
    exact ⟨moveRow tid no occ now operator.id item fromSlot toSlot qty note,
      by rw [htx]; exact get_txn_by_no_append_fresh hf, rfl, by simp [moveRow]⟩
  · intro db db' item slot actor no actual occ now note cid aid cno ano hf h
    obtain ⟨operator, hop, hq, hno', hops, htx, hst⟩ := create_count_inv h
    subst hno'
    have hc1 : get_txn_by_no (db.txns
        ++ [countRow cid no occ now operator.id item slot actual note]) no
        = some (countRow cid no occ now operator.id item slot actual note) :=
      get_txn_by_no_append_fresh hf
    have hc2 : get_txn_by_no db'.txns no
        = some (countRow cid no occ now operator.id item slot actual note) := by
      rw [htx]
      have hc1' := get_txn_by_no_append_left
        [adjustRow aid ano occ now operator.id item slot
          (actual - (get_stock_tx db.stock item slot).getD 0) note] hc1
      rw [List.append_assoc] at hc1'
      exact hc1'
    refine ⟨⟨_, hc2, rfl⟩, ?_⟩
    intro occ2 actor2 note2 now2 rid rno operator2 hop2
    exact reverse_txn_bad_kind db' no occ2 actor2 note2 now2 rid rno operator2
      (countRow cid no occ now operator.id item slot actual note) hop2 hc2 (Or.inr rfl)
  · intro db db' txnNo actor no occ now note rid rno hf h
    obtain ⟨operator, target, hop, htgt, hkind, hrv, hno', hops, htx, heff⟩ := reverse_txn_inv h
    subst hno'
    exact ⟨reversalRow rid no occ now operator.id target note,
      by rw [htx]; exact get_txn_by_no_append_fresh hf, rfl⟩

theorem returned_no_resolves_to_inserted_row_witness :
    reverse_txn dbCounted "TC" 3 "op1" none 10 "r1" "TR" = .error .ValidationError :=
  (returned_no_resolves_to_inserted_row.2.2.2.1 dbFive dbCounted "itemA" "slotA" "op1" "TC"
    10 2 9 none "c1" "a1" "TC" "TA" (by decide) rfl).2 3 "op1" none 10 "r1" "TR" opBob rfl

theorem wrap64_eq_of_inRange {x : Int} (h1 : -(2 ^ 63) ≤ x) (h2 : x < 2 ^ 63) :
    wrap64 x = x := by
  have hp63 : (2 : Int) ^ 63 = 9223372036854775808 := by norm_num
  have hp64 : (2 : Int) ^ 64 = 18446744073709551616 := by norm_num
  unfold wrap64
  rw [hp63, hp64]
  rw [hp63] at h1 h2
  omega

theorem wrap64_eq_of_nonneg_lt {x : Int} (h1 : 0 ≤ x) (h2 : x < 2 ^ 63) : wrap64 x = x :=
  wrap64_eq_of_inRange (le_trans (by norm_num) h1) h2

theorem wrap64_neg_of_overflow {x : Int} (h1 : 2 ^ 63 ≤ x) (h2 : x < 2 ^ 64) :
    wrap64 x < 0 := by
  have hp63 : (2 : Int) ^ 63 = 9223372036854775808 := by norm_num
  have hp64 : (2 : Int) ^ 64 = 18446744073709551616 := by norm_num
  unfold wrap64
  rw [hp63, hp64]
  rw [hp63] at h1
  rw [hp64] at h2
  omega

theorem add_lt_two_pow_64 {a b : Int} (ha : a < 2 ^ 63) (hb : b < 2 ^ 63) :
    a + b < 2 ^ 64 := by
  have hp63 : (2 : Int) ^ 63 = 9223372036854775808 := by norm_num
  have hp64 : (2 : Int) ^ 64 = 18446744073709551616 := by norm_num
  rw [hp63] at ha hb
  rw [hp64]
  omega

/-- C10: no upper bound is enforced on stock quantities, at all three addition
sites the claim names, modelled wrap-accurately (`wrap64` is release-mode i64
addition): `create_inbound_i64`'s `next_qty`, the to-slot update of
`create_move_i64`, and `apply_stock_delta_i64` — the function that performs
the add-back of an Outbound reversal.  Parts 1-3: whenever `current + qty`
stays within the i64 range, each site commits and the resulting stock level is
exactly `current + qty`.  Parts 4-6: no precondition in the engine or the
store checks the upper range — with valid i64 operands whose sum exceeds the
range, each site still computes the wrapped sum and attempts the write, and
the only rejection is by the downstream negative-value guards acting on the
wrapped (negative) result: `upsert_stock_tx`'s store guard (validation error)
for Inbound and Move, and `apply_stock_delta`'s own non-negativity check
(`InsufficientStock`) for the reversal add-back.  Part 7: the unchecked 64-bit
addition agrees with exact addition on the whole i64 range. -/
theorem unchecked_i64_addition_sites :
    (∀ db item slot, ∀ qty occ : Int, ∀ actor, ∀ note : Option String, ∀ now : Int,
      ∀ tid tno operator, 0 < qty →
      require_active_operator_by_id db.operators actor = .ok operator →
      0 ≤ (get_stock_tx db.stock item slot).getD 0 →
      (get_stock_tx db.stock item slot).getD 0 + qty < 2 ^ 63 →
      ∃ db', create_inbound_i64 db item slot qty occ actor note now tid tno = .ok (tno, db') ∧
        stockQty db' item slot = (get_stock_tx db.stock item slot).getD 0 + qty) ∧
    (∀ db item fromSlot toSlot, ∀ qty occ : Int, ∀ actor, ∀ note : Option String, ∀ now : Int,
      ∀ tid tno operator, 0 < qty → fromSlot ≠ toSlot →
      require_active_operator_by_id db.operators actor = .ok operator →
      qty ≤ (get_stock_tx db.stock item fromSlot).getD 0 →
      (get_stock_tx db.stock item fromSlot).getD 0 < 2 ^ 63 →
      0 ≤ (get_stock_tx db.stock item toSlot).getD 0 →
      (get_stock_tx db.stock item toSlot).getD 0 + qty < 2 ^ 63 →
      ∃ db', create_move_i64 db item fromSlot toSlot qty occ actor note now tid tno
          = .ok (tno, db') ∧
        stockQty db' item toSlot = (get_stock_tx db.stock item toSlot).getD 0 + qty ∧
        stockQty db' item fromSlot = (get_stock_tx db.stock item fromSlot).getD 0 - qty) ∧
    (∀ stock item slot, ∀ delta now : Int,
      0 ≤ (get_stock_tx stock item slot).getD 0 → 0 ≤ delta →
      (get_stock_tx stock item slot).getD 0 + delta < 2 ^ 63 →
      apply_stock_delta_i64 stock item slot delta now
        = .ok (setStockEntry stock item slot
            ((get_stock_tx stock item slot).getD 0 + delta) now)) ∧
    (∀ db item slot, ∀ qty occ : Int, ∀ actor, ∀ note : Option String, ∀ now : Int,
      ∀ tid tno operator, 0 < qty → qty < 2 ^ 63 →
      require_active_operator_by_id db.operators actor = .ok operator →
      0 ≤ (get_stock_tx db.stock item slot).getD 0 →
      (get_stock_tx db.stock item slot).getD 0 < 2 ^ 63 →
      2 ^ 63 ≤ (get_stock_tx db.stock item slot).getD 0 + qty →
      create_inbound_i64 db item slot qty occ actor note now tid tno
        = .error .ValidationError) ∧
    (∀ db item fromSlot toSlot, ∀ qty occ : Int, ∀ actor, ∀ note : Option String, ∀ now : Int,
      ∀ tid tno operator, 0 < qty → qty < 2 ^ 63 → fromSlot ≠ toSlot →
      require_active_operator_by_id db.operators actor = .ok operator →
      qty ≤ (get_stock_tx db.stock item fromSlot).getD 0 →
      (get_stock_tx db.stock item fromSlot).getD 0 < 2 ^ 63 →
      0 ≤ (get_stock_tx db.stock item toSlot).getD 0 →
      (get_stock_tx db.stock item toSlot).getD 0 < 2 ^ 63 →
      2 ^ 63 ≤ (get_stock_tx db.stock item toSlot).getD 0 + qty →
      create_move_i64 db item fromSlot toSlot qty occ actor note now tid tno
        = .error .ValidationError) ∧
    (∀ stock item slot, ∀ delta now : Int,
      0 ≤ (get_stock_tx stock item slot).getD 0 →
      (get_stock_tx stock item slot).getD 0 < 2 ^ 63 →
      0 ≤ delta → delta < 2 ^ 63 →
      2 ^ 63 ≤ (get_stock_tx stock item slot).getD 0 + delta →
      apply_stock_delta_i64 stock item slot delta now = .error .InsufficientStock) ∧
    (∀ x : Int, -(2 ^ 63) ≤ x → x < 2 ^ 63 → wrap64 x = x) := by
  refine ⟨?_, ?_, ?_, ?_, ?_, ?_, ?_⟩
  · intro db item slot qty occ actor note now tid tno operator hq hop hc hub
    have hw : wrap64 ((get_stock_tx db.stock item slot).getD 0 + qty)
        = (get_stock_tx db.stock item slot).getD 0 + qty :=
      wrap64_eq_of_nonneg_lt (by omega) hub
    refine ⟨{ db with
        txns := db.txns ++ [inboundRow tid tno occ now operator.id item slot qty note],
        stock := setStockEntry db.stock item slot
          ((get_stock_tx db.stock item slot).getD 0 + qty) now }, ?_, ?_⟩
    · simp only [create_inbound_i64, hop, if_neg (show ¬qty ≤ 0 from by omega), insert_txn,
        hw, upsert_stock_tx_ok _ _ _ _
          (by omega : (0:Int) ≤ (get_stock_tx db.stock item slot).getD 0 + qty)]
    · simp only [stockQty, get_setStockEntry, and_self, if_true, eq_self_iff_true,
        Option.getD_some]
  · intro db item fromSlot toSlot qty occ actor note now tid tno operator hq hne hop hge
      hfb hc0 hub
    have hwf : wrap64 ((get_stock_tx db.stock item fromSlot).getD 0 - qty)
        = (get_stock_tx db.stock item fromSlot).getD 0 - qty :=
      wrap64_eq_of_nonneg_lt (by omega) (by omega)
    have hgetto : get_stock_tx (setStockEntry db.stock item fromSlot
        ((get_stock_tx db.stock item fromSlot).getD 0 - qty) now) item toSlot
        = get_stock_tx db.stock item toSlot := by
      rw [get_setStockEntry, if_neg]
      intro ⟨_, hts⟩
      exact hne hts.symm
    have hwt : wrap64 ((get_stock_tx db.stock item toSlot).getD 0 + qty)
        = (get_stock_tx db.stock item toSlot).getD 0 + qty :=
      wrap64_eq_of_nonneg_lt (by omega) hub
    refine ⟨{ db with
        txns := db.txns ++ [moveRow tid tno occ now operator.id item fromSlot toSlot qty note],
        stock := setStockEntry (setStockEntry db.stock item fromSlot
            ((get_stock_tx db.stock item fromSlot).getD 0 - qty) now)
          item toSlot ((get_stock_tx db.stock item toSlot).getD 0 + qty) now }, ?_, ?_, ?_⟩
    · simp only [create_move_i64, hop, if_neg (show ¬qty ≤ 0 from by omega), if_neg hne,
        if_neg (not_lt.mpr hge), insert_txn, hwf,
        upsert_stock_tx_ok _ _ _ _
          (by omega : (0:Int) ≤ (get_stock_tx db.stock item fromSlot).getD 0 - qty),
        hgetto, hwt,
        upsert_stock_tx_ok _ _ _ _
          (by omega : (0:Int) ≤ (get_stock_tx db.stock item toSlot).getD 0 + qty)]
    · simp only [stockQty, get_setStockEntry, and_self, if_true, eq_self_iff_true,
        Option.getD_some]
    · simp only [stockQty]
      rw [get_setStockEntry, if_neg (show ¬(item = item ∧ fromSlot = toSlot) from
        fun hcc => hne hcc.2)]
      rw [get_setStockEntry, if_pos ⟨rfl, rfl⟩]
      rfl
  · intro stock item slot delta now hc hd hub
    have hw : wrap64 ((get_stock_tx stock item slot).getD 0 + delta)
        = (get_stock_tx stock item slot).getD 0 + delta :=
      wrap64_eq_of_nonneg_lt (by omega) hub
    simp only [apply_stock_delta_i64, hw,
      if_neg (show ¬((get_stock_tx stock item slot).getD 0 + delta < 0) from by omega),
      upsert_stock_tx_ok _ _ _ _
        (by omega : (0:Int) ≤ (get_stock_tx stock item slot).getD 0 + delta)]
  · intro db item slot qty occ actor note now tid tno operator hq hqb hop hc hcb hov
    have hneg : wrap64 ((get_stock_tx db.stock item slot).getD 0 + qty) < 0 :=
      wrap64_neg_of_overflow hov (add_lt_two_pow_64 hcb hqb)
    simp only [create_inbound_i64, hop, if_neg (show ¬qty ≤ 0 from by omega), insert_txn,
      upsert_stock_tx_neg _ _ _ _ hneg]
  · intro db item fromSlot toSlot qty occ actor note now tid tno operator hq hqb hne hop hge
      hfb hc0 hcb hov
    have hwf : wrap64 ((get_stock_tx db.stock item fromSlot).getD 0 - qty)
        = (get_stock_tx db.stock item fromSlot).getD 0 - qty :=
      wrap64_eq_of_nonneg_lt (by omega) (by omega)
    have hgetto : get_stock_tx (setStockEntry db.stock item fromSlot
        ((get_stock_tx db.stock item fromSlot).getD 0 - qty) now) item toSlot
        = get_stock_tx db.stock item toSlot := by
      rw [get_setStockEntry, if_neg]
      intro ⟨_, hts⟩
      exact hne hts.symm
    have hneg : wrap64 ((get_stock_tx db.stock item toSlot).getD 0 + qty) < 0 :=
      wrap64_neg_of_overflow hov (add_lt_two_pow_64 hcb hqb)
    simp only [create_move_i64, hop, if_neg (show ¬qty ≤ 0 from by omega), if_neg hne,
      if_neg (not_lt.mpr hge), insert_txn, hwf,
      upsert_stock_tx_ok _ _ _ _
        (by omega : (0:Int) ≤ (get_stock_tx db.stock item fromSlot).getD 0 - qty),
      hgetto, upsert_stock_tx_neg _ _ _ _ hneg]
  · intro stock item slot delta now hc hcb hd hdb hov
    have hneg : wrap64 ((get_stock_tx stock item slot).getD 0 + delta) < 0 :=
      wrap64_neg_of_overflow hov (add_lt_two_pow_64 hcb hdb)
    simp only [apply_stock_delta_i64, if_pos hneg]
  · intro x h1 h2
    exact wrap64_eq_of_inRange h1 h2

theorem unchecked_i64_addition_sites_witness :
    (∃ db', create_inbound_i64 dbFive "itemA" "slotA" 3 0 "op1" none 8 "idW" "TW"
        = .ok ("TW", db') ∧
      stockQty db' "itemA" "slotA" = 8) ∧
    create_inbound_i64 dbHuge "itemA" "slotA" 1 0 "op1" none 1 "idH" "TH"
      = .error .ValidationError ∧
    apply_stock_delta_i64 dbHuge.stock "itemA" "slotA" 1 0 = .error .InsufficientStock ∧
    wrap64 12345 = 12345 :=
  ⟨unchecked_i64_addition_sites.1 dbFive "itemA" "slotA" 3 0 "op1" none 8 "idW" "TW" opBob
      (by decide) rfl (by decide) (by decide),
   unchecked_i64_addition_sites.2.2.2.1 dbHuge "itemA" "slotA" 1 0 "op1" none 1 "idH" "TH"
      opBob (by decide) (by decide) rfl (by decide) (by decide) (by decide),
   unchecked_i64_addition_sites.2.2.2.2.2.1 dbHuge.stock "itemA" "slotA" 1 0
      (by decide) (by decide) (by decide) (by decide) (by decide),
   unchecked_i64_addition_sites.2.2.2.2.2.2 12345 (by decide) (by decide)⟩

end Inventory
